import Mathlib

/-!
VSL: type registry, scope table, name mapper and code generator.

A shallow embedding of `plsl/reflection/type_manager.cpp`, `plsl/parser/ScopeManager.cpp`,
`plsl/glsl/NameHelper.cpp` and `vsl/glsl/Generator.cpp`, followed by the properties
established about them.

Conventions of the embedding:
* a `std::unordered_map<string, T>` is an association list searched from the front
  (`umFind` is `find`, `umAssign` is `m[k] = v`);
* a returned pointer is an `Option`: `none` is `nullptr`, `some v` points at a stored `v`;
* `uint8` arguments are natural numbers; the functions only compare them with constants;
* a member function takes the object as its first argument and returns the new object
  next to its result when it can change it.
-/

namespace VSL

/-! ## Data model -/

/-- Modelled from the spec: the enumeration `ShaderBaseType` is declared in `types.hpp`,
which is not among the sources. The enumerators are the ones the sources use
(`type_manager.cpp` spells the integer kinds `SInteger` and `UInteger`, `NameHelper.cpp`
spells them `Signed` and `Unsigned`), completed with `Void` and `Struct` from the list of
kinds in section 3 of the specification. -/
inductive ShaderBaseType where
  | Void | Boolean | Signed | Unsigned | Float
  | Sampler | BoundSampler | Texture | Image
  | Uniform | ROBuffer | RWBuffer | ROTexels | RWTexels
  | Input | Struct
  deriving DecidableEq, Repr

/-- Modelled from the spec: the enumeration `ImageDims` of `types.hpp` (not among the
sources), with the enumerators used by the builtin table and by `GetImageDimsPostfix`. -/
inductive ImageDims where
  | None | E1D | E2D | E3D | E1DArray | E2DArray | Cube | CubeArray | Shadow
  deriving DecidableEq, Repr

/-- The member `image.texel` of a type descriptor: `type`, `size`, `components`. -/
structure TexelInfo where
  type : ShaderBaseType
  size : Nat
  components : Nat
  deriving DecidableEq, Repr

/-- The member `image` of a type descriptor: `dims` and `texel`. -/
structure ImageInfo where
  dims : ImageDims
  texel : TexelInfo
  deriving DecidableEq, Repr

/-- The member `numeric` of a type descriptor: `size`, `dims[0]`, `dims[1]`. -/
structure NumericInfo where
  size : Nat
  dims0 : Nat
  dims1 : Nat
  deriving DecidableEq, Repr

/-- Modelled from the spec: the struct `ShaderType` of `types.hpp`, which is not among the
sources. The fields are the members the sources read (`baseType`, `numeric.size`, `numeric.dims`,
`image.dims`, `image.texel`, and the struct name of a buffer); the payloads that the C++
type may overlay are kept side by side. -/
structure ShaderType where
  baseType : ShaderBaseType
  numeric : NumericInfo
  image : ImageInfo
  structName : String
  deriving DecidableEq, Repr

/-- The initialiser `{ }` of the builtin table. Payload members that an initialiser does
not name are filled with `0`, `Void`, `None` and the empty string. -/
def ShaderType.ofVoid : ShaderType :=
  ⟨.Void, ⟨0, 0, 0⟩, ⟨.None, ⟨.Void, 0, 0⟩⟩, ""⟩

/-- The initialiser `{ base, size, dim0, dim1 }` of the builtin table. -/
def ShaderType.ofNumeric (base : ShaderBaseType) (size dim0 dim1 : Nat) : ShaderType :=
  ⟨base, ⟨size, dim0, dim1⟩, ⟨ImageDims.None, ⟨ShaderBaseType.Void, 0, 0⟩⟩, ""⟩

/-- The initialiser `{ base, dims }` of the builtin table. -/
def ShaderType.ofImage (base : ShaderBaseType) (dims : ImageDims) : ShaderType :=
  ⟨base, ⟨0, 0, 0⟩, ⟨dims, ⟨ShaderBaseType.Void, 0, 0⟩⟩, ""⟩

/-- The initialiser `{ base, dims, texelType, n }` of the builtin table. The constructor it
calls is declared in `types.hpp`; the last argument is recorded here as the texel size, and
no property below depends on that choice. -/
def ShaderType.ofTexelImage (base : ShaderBaseType) (dims : ImageDims)
    (texelType : ShaderBaseType) (n : Nat) : ShaderType :=
  ⟨base, ⟨0, 0, 0⟩, ⟨dims, ⟨texelType, n, 0⟩⟩, ""⟩

/-- The initialiser `{ base, "name" }` of the builtin table. -/
def ShaderType.ofBuffer (base : ShaderBaseType) (structName : String) : ShaderType :=
  ⟨base, ⟨0, 0, 0⟩, ⟨ImageDims.None, ⟨ShaderBaseType.Void, 0, 0⟩⟩, structName⟩

/-! ## `std::unordered_map` -/

/-- The value stored under key `k`, as `find` gives it (`none` is `end()`). -/
def umFind {β : Type} : List (String × β) → String → Option β
  | [], _ => none
  | (k', v) :: rest, k => if k' = k then some v else umFind rest k

/-- The map after `m[k] = v`: the value under `k` is replaced, or the pair is added. -/
def umAssign {β : Type} : List (String × β) → String → β → List (String × β)
  | [], k, v => [(k, v)]
  | (k', v') :: rest, k, v =>
    if k' = k then (k, v) :: rest else (k', v') :: umAssign rest k v

/-! ## TypeManager (`plsl/reflection/type_manager.cpp`) -/

open ShaderBaseType in
/-- The static table `TypeManager::BuiltinTypes_`. -/
def BuiltinTypes_ : List (String × ShaderType) := [
  ("void", ShaderType.ofVoid),
  -- Boolean
  ("bool", ShaderType.ofNumeric Boolean 4 1 1), ("bool2", ShaderType.ofNumeric Boolean 4 2 1),
  ("bool3", ShaderType.ofNumeric Boolean 4 3 1), ("bool4", ShaderType.ofNumeric Boolean 4 4 1),
  -- Integer
  ("int", ShaderType.ofNumeric Signed 4 1 1), ("int2", ShaderType.ofNumeric Signed 4 2 1),
  ("int3", ShaderType.ofNumeric Signed 4 3 1), ("int4", ShaderType.ofNumeric Signed 4 4 1),
  ("uint", ShaderType.ofNumeric Unsigned 4 1 1), ("uint2", ShaderType.ofNumeric Unsigned 4 2 1),
  ("uint3", ShaderType.ofNumeric Unsigned 4 3 1), ("uint4", ShaderType.ofNumeric Unsigned 4 4 1),
  -- Floating
  ("float", ShaderType.ofNumeric Float 4 1 1), ("float2", ShaderType.ofNumeric Float 4 2 1),
  ("float3", ShaderType.ofNumeric Float 4 3 1), ("float4", ShaderType.ofNumeric Float 4 4 1),
  -- Matrices
  ("float2x2", ShaderType.ofNumeric Float 4 2 2),
  ("float3x3", ShaderType.ofNumeric Float 4 3 3),
  ("float4x4", ShaderType.ofNumeric Float 4 4 4),
  ("float2x3", ShaderType.ofNumeric Float 4 3 2), ("float3x2", ShaderType.ofNumeric Float 4 2 3),
  ("float2x4", ShaderType.ofNumeric Float 4 4 2), ("float4x2", ShaderType.ofNumeric Float 4 2 4),
  ("float3x4", ShaderType.ofNumeric Float 4 4 3), ("float4x3", ShaderType.ofNumeric Float 4 3 4),
  -- Sampler
  ("Sampler", ShaderType.ofImage Sampler ImageDims.None),
  ("SamplerShadow", ShaderType.ofImage Sampler ImageDims.Shadow),
  -- Bound Sampler
  ("Sampler1D", ShaderType.ofImage BoundSampler ImageDims.E1D),
  ("Sampler2D", ShaderType.ofImage BoundSampler ImageDims.E2D),
  ("Sampler3D", ShaderType.ofImage BoundSampler ImageDims.E3D),
  ("Sampler1DArray", ShaderType.ofImage BoundSampler ImageDims.E1DArray),
  ("Sampler2DArray", ShaderType.ofImage BoundSampler ImageDims.E2DArray),
  ("SamplerCube", ShaderType.ofImage BoundSampler ImageDims.Cube),
  ("SamplerCubeArray", ShaderType.ofImage BoundSampler ImageDims.CubeArray),
  -- Texture
  ("Texture1D", ShaderType.ofTexelImage Texture ImageDims.E1D Float 4),
  ("Texture2D", ShaderType.ofTexelImage Texture ImageDims.E2D Float 4),
  ("Texture3D", ShaderType.ofTexelImage Texture ImageDims.E3D Float 4),
  ("Texture1DArray", ShaderType.ofTexelImage Texture ImageDims.E1DArray Float 4),
  ("Texture2DArray", ShaderType.ofTexelImage Texture ImageDims.E2DArray Float 4),
  ("TextureCube", ShaderType.ofTexelImage Texture ImageDims.Cube Float 4),
  ("TextureCubeArray", ShaderType.ofTexelImage Texture ImageDims.CubeArray Float 4),
  ("ITexture1D", ShaderType.ofTexelImage Texture ImageDims.E1D Signed 4),
  ("ITexture2D", ShaderType.ofTexelImage Texture ImageDims.E2D Signed 4),
  ("ITexture3D", ShaderType.ofTexelImage Texture ImageDims.E3D Signed 4),
  ("ITexture1DArray", ShaderType.ofTexelImage Texture ImageDims.E1DArray Signed 4),
  ("ITexture2DArray", ShaderType.ofTexelImage Texture ImageDims.E2DArray Signed 4),
  ("ITextureCube", ShaderType.ofTexelImage Texture ImageDims.Cube Signed 4),
  ("ITextureCubeArray", ShaderType.ofTexelImage Texture ImageDims.CubeArray Signed 4),
  ("UTexture1D", ShaderType.ofTexelImage Texture ImageDims.E1D Unsigned 4),
  ("UTexture2D", ShaderType.ofTexelImage Texture ImageDims.E2D Unsigned 4),
  ("UTexture3D", ShaderType.ofTexelImage Texture ImageDims.E3D Unsigned 4),
  ("UTexture1DArray", ShaderType.ofTexelImage Texture ImageDims.E1DArray Unsigned 4),
  ("UTexture2DArray", ShaderType.ofTexelImage Texture ImageDims.E2DArray Unsigned 4),
  ("UTextureCube", ShaderType.ofTexelImage Texture ImageDims.Cube Unsigned 4),
  ("UTextureCubeArray", ShaderType.ofTexelImage Texture ImageDims.CubeArray Unsigned 4),
  -- Image (incomplete descriptions)
  ("Image1D", ShaderType.ofImage Image ImageDims.E1D),
  ("Image2D", ShaderType.ofImage Image ImageDims.E2D),
  ("Image3D", ShaderType.ofImage Image ImageDims.E3D),
  ("Image1DArray", ShaderType.ofImage Image ImageDims.E1DArray),
  ("Image2DArray", ShaderType.ofImage Image ImageDims.E2DArray),
  ("ImageCube", ShaderType.ofImage Image ImageDims.Cube),
  ("ImageCubeArray", ShaderType.ofImage Image ImageDims.CubeArray),
  -- Buffer types (incomplete descriptions)
  ("Uniform", ShaderType.ofBuffer Uniform ""),
  ("ROBuffer", ShaderType.ofBuffer ROBuffer ""),
  ("RWBuffer", ShaderType.ofBuffer RWBuffer ""),
  ("ROTexels", ShaderType.ofBuffer ROTexels ""),
  ("RWTexels", ShaderType.ofBuffer RWTexels ""),
  -- Subpass input
  ("Input", ShaderType.ofTexelImage Input ImageDims.E2D Float 4),
  ("IInput", ShaderType.ofTexelImage Input ImageDims.E2D Signed 4),
  ("UInput", ShaderType.ofTexelImage Input ImageDims.E2D Unsigned 4)]

/-- The class `TypeManager`: its only data member is the map of added types. -/
structure TypeManager where
  addedTypes_ : List (String × ShaderType)
  deriving DecidableEq, Repr

/-- The constructor `TypeManager::TypeManager()`: no added types. -/
def TypeManager.new : TypeManager := ⟨[]⟩

/-- The member `TypeManager::addType`: when `name` is not a key of `addedTypes_` the
descriptor is stored under it and a pointer to the stored descriptor is returned,
otherwise `nullptr` is returned. -/
def TypeManager.addType (tm : TypeManager) (name : String) (type : ShaderType) :
    Option ShaderType × TypeManager :=
  match umFind tm.addedTypes_ name with
  | none => (some type, ⟨umAssign tm.addedTypes_ name type⟩)
  | some _ => (none, tm)

/-- The member `TypeManager::getType`: the added types are searched first, then the
builtin table. -/
def TypeManager.getType (tm : TypeManager) (typeName : String) : Option ShaderType :=
  match umFind tm.addedTypes_ typeName with
  | some t => some t
  | none =>
    match umFind BuiltinTypes_ typeName with
    | some t => some t
    | none => none

/-- The sequence of calls `addType(n1, t1); addType(n2, t2); ...` on one registry, the
returned pointers dropped. -/
def TypeManager.addTypes (tm : TypeManager) : List (String × ShaderType) → TypeManager
  | [] => tm
  | (name, type) :: rest => TypeManager.addTypes (tm.addType name type).2 rest

/-- The reference lookup of the specification, in its words: "looks up user types first,
falling back to the builtin set; returns nothing if neither contains `name`". It is one
search through the user entries followed by the builtin entries. -/
def resolveRef (tm : TypeManager) (name : String) : Option ShaderType :=
  ((tm.addedTypes_ ++ BuiltinTypes_).find? (fun entry => entry.1 == name)).map Prod.snd

/-! ## ScopeManager (`plsl/parser/ScopeManager.cpp`) -/

/-- Modelled from the spec: the class `Variable` (not among the sources): a name, a type
reference, an array length and the flat-interpolation flag of its stage-specific extras. -/
structure Variable where
  name : String
  dataType : ShaderType
  arraySize : Nat
  flat : Bool
  deriving DecidableEq, Repr

/-- The class `ScopeManager`: the vector `allGlobals_`. -/
structure ScopeManager where
  allGlobals_ : List Variable
  deriving DecidableEq, Repr

/-- The constructor `ScopeManager::ScopeManager()`: `allGlobals_{ }`. -/
def ScopeManager.new : ScopeManager := ⟨[]⟩

/-- The member `ScopeManager::hasGlobal`: `std::find_if` over `allGlobals_` with the
predicate `var.name() == name`, compared with `end()`. -/
def ScopeManager.hasGlobal (sm : ScopeManager) (name : String) : Bool :=
  (sm.allGlobals_.find? (fun var => var.name == name)).isSome

/-- The member `ScopeManager::addGlobal`: `false` when `hasGlobal(var.name())`, otherwise
`push_back(var)` and `true`. -/
def ScopeManager.addGlobal (sm : ScopeManager) (var : Variable) : Bool × ScopeManager :=
  if sm.hasGlobal var.name then (false, sm)
  else (true, ⟨sm.allGlobals_ ++ [var]⟩)

/-- The sequence of calls `addGlobal(v1); addGlobal(v2); ...` on one table: the returned
booleans in call order, and the final table. -/
def ScopeManager.addGlobals (sm : ScopeManager) : List Variable → List Bool × ScopeManager
  | [] => ([], sm)
  | var :: rest =>
    let step := sm.addGlobal var
    let tail := ScopeManager.addGlobals step.2 rest
    (step.1 :: tail.1, tail.2)

/-! ## NameHelper (`plsl/glsl/NameHelper.cpp`) -/

/-- The function `NameHelper::GetNumericTypeName(type, size, dim0, dim1)`. The body never
reads the parameter `size`, written `_size` here. -/
def GetNumericTypeName (type : ShaderBaseType) (_size dim0 dim1 : Nat) : String :=
  match type with
  | .Boolean =>
    if dim0 = 1 then "bool" else if dim0 = 2 then "bvec2" else if dim0 = 3 then "bvec3"
    else if dim0 = 4 then "bvec4" else ""
  | .Unsigned =>
    if dim0 = 1 then "uint" else if dim0 = 2 then "uvec2" else if dim0 = 3 then "uvec3"
    else if dim0 = 4 then "uvec4" else ""
  | .Signed =>
    if dim0 = 1 then "int" else if dim0 = 2 then "ivec2" else if dim0 = 3 then "ivec3"
    else if dim0 = 4 then "ivec4" else ""
  | .Float =>
    if dim1 = 1 then
      if dim0 = 1 then "float" else if dim0 = 2 then "vec2" else if dim0 = 3 then "vec3"
      else if dim0 = 4 then "vec4" else ""
    else if dim1 = 2 then
      if dim0 = 2 then "mat2x2" else if dim0 = 3 then "mat2x3"
      else if dim0 = 4 then "mat2x4" else ""
    else if dim1 = 3 then
      if dim0 = 2 then "mat3x2" else if dim0 = 3 then "mat3x3"
      else if dim0 = 4 then "mat3x4" else ""
    else if dim1 = 4 then
      if dim0 = 2 then "mat4x2" else if dim0 = 3 then "mat4x3"
      else if dim0 = 4 then "mat4x4" else ""
    else ""
  | _ => ""

/-- The function `NameHelper::GetImageDimsPostfix`. -/
def GetImageDimsPostfix (dims : ImageDims) : String :=
  match dims with
  | .E1D => "1D"
  | .E2D => "2D"
  | .E3D => "3D"
  | .E1DArray => "1DArray"
  | .E2DArray => "2DArray"
  | .Cube => "Cube"
  | _ => ""

/-- The function `NameHelper::GetImageTexelPrefix`. -/
def GetImageTexelPrefix (type : ShaderBaseType) : String :=
  match type with
  | .Unsigned => "u"
  | .Signed => "i"
  | _ => ""

/-- The function `NameHelper::GetImageTexelFormat(type, size, dim0)`. -/
def GetImageTexelFormat (type : ShaderBaseType) (size dim0 : Nat) : String :=
  match type with
  | .Unsigned =>
    if dim0 = 1 then "r32ui" else if dim0 = 2 then "rg32ui"
    else if dim0 = 4 then "rgba32ui" else ""
  | .Signed =>
    if dim0 = 1 then "r32i" else if dim0 = 2 then "rg32i"
    else if dim0 = 4 then "rgba32i" else ""
  | .Float =>
    if size = 4 then
      if dim0 = 1 then "r32f" else if dim0 = 2 then "rg32f"
      else if dim0 = 4 then "rgba32f" else ""
    else if size = 1 then
      if dim0 = 1 then "r8" else if dim0 = 2 then "rg8"
      else if dim0 = 4 then "rgba8" else ""
    else ""
  | _ => ""

/-- The function `NameHelper::GetBindingTypeName(type, extra)`. The first component is the
returned token, the second is the string `*extra` after the call; `extra` is the string
it held before the call, which the two early returns leave untouched. -/
def GetBindingTypeName (type : ShaderType) (extra : String) : String × String :=
  match type.baseType with
  | .Sampler =>
    let dimText := GetImageDimsPostfix type.image.dims
    if dimText = "" then ("", extra)
    else
      let pfx := GetImageTexelPrefix type.image.texel.type
      (pfx ++ "sampler" ++ dimText, "")
  | .Image =>
    let dimText := GetImageDimsPostfix type.image.dims
    if dimText = "" then ("", extra)
    else
      let pfx := GetImageTexelPrefix type.image.texel.type
      let fmt := GetImageTexelFormat type.image.texel.type type.image.texel.size
        type.image.texel.components
      (pfx ++ "image" ++ dimText, if fmt = "" then "!" else fmt)
  | .Uniform => (" ", "std140")
  | .ROBuffer => (" ", "std430")
  | .RWBuffer => (" ", "std430")
  | .ROTexels => ("textureBuffer", "")
  | .RWTexels =>
    ("imageBuffer", GetImageTexelFormat type.image.texel.type type.image.texel.size
      type.image.texel.components)
  | _ => ("", "")

/-! ## Reference tables of the specification -/

/-- The scalar and vector tokens as the specification lists them: `bool/bvecR`,
`int/ivecR`, `uint/uvecR`, `float/vecR` for `R` rows. -/
def vectorTokenRef (base : ShaderBaseType) (rows : Nat) : String :=
  match base with
  | .Boolean => if rows = 1 then "bool" else "bvec" ++ toString rows
  | .Signed => if rows = 1 then "int" else "ivec" ++ toString rows
  | .Unsigned => if rows = 1 then "uint" else "uvec" ++ toString rows
  | .Float => if rows = 1 then "float" else "vec" ++ toString rows
  | _ => ""

/-- The matrix token as the specification writes it: `mat<c>x<r>`, columns first. -/
def matrixTokenRef (rows cols : Nat) : String :=
  "mat" ++ toString cols ++ "x" ++ toString rows

/-- The texel-format table as the specification writes it: `r`, `rg` or `rgba` for 1, 2
or 4 components, followed by `32ui`, `32i`, `32f` or `8`. -/
def texelFormatRef (base : ShaderBaseType) (size comps : Nat) : String :=
  (if comps = 1 then "r" else if comps = 2 then "rg" else "rgba") ++
  (match base with
   | .Unsigned => "32ui"
   | .Signed => "32i"
   | _ => if size = 4 then "32f" else "8")

/-- The combinations on which the specification says a texel format exists: an
`Unsigned`, `Signed` or `Float` base, 1, 2 or 4 components, and for `Float` a byte size
of 1 or 4. -/
def texelFormatDomain (base : ShaderBaseType) (size comps : Nat) : Prop :=
  (base = .Unsigned ∨ base = .Signed ∨ base = .Float) ∧
  (comps = 1 ∨ comps = 2 ∨ comps = 4) ∧
  (base = .Float → size = 1 ∨ size = 4)

/-- The requests for which `GetNumericTypeName` has no token: a base type that is not
numeric, a row count outside 1..4, or a `Float` request whose column count is outside
1..4 or that asks for several columns of one row. -/
def numericUnmappable (base : ShaderBaseType) (rows cols : Nat) : Prop :=
  (base ≠ .Boolean ∧ base ≠ .Signed ∧ base ≠ .Unsigned ∧ base ≠ .Float) ∨
  (rows < 1 ∨ 4 < rows) ∨
  (base = .Float ∧ (cols < 1 ∨ 4 < cols ∨ (1 < cols ∧ rows = 1)))

/-! ## Generator (`vsl/glsl/Generator.cpp`)

Conventions of this part:
* a `std::stringstream` is the text written to it so far, and a statement
  `s << a << b << c` appends `a ++ b ++ c` (`std::endl` is a line feed);
* `currentFunc_` is the key of the body it points into, `none` for `nullptr`;
* a member function that can throw, or that writes through `currentFunc_`, returns
  `Except Failure Generator`; a throw ends the generation pass, and the partly written
  state it leaves behind is not kept;
* `uint32` values are natural numbers, reduced modulo `2 ^ 32` where the code computes
  with them, and `size_t` values modulo `2 ^ 64`;
* the data members are declared in `Generator.hpp`, which is not among the sources:
  `uniqueId_` is taken to be a `uint32`, and the counter `localId_`, of which the sources
  show only the initial value `localId_{ 0 }` and the statement `localId_ += 1`, is a
  natural number.
-/

/-- Modelled from the spec: the enumeration `ShaderStages` (not among the sources): the
inactive value `None` and the pipeline stages. -/
inductive ShaderStages where
  | None | Vertex | TessControl | TessEval | Geometry | Fragment
  deriving DecidableEq, Repr

/-- Modelled from the spec: the function `ShaderStageToStr` (not among the sources). The
vertex and fragment stages get the names `Generator.cpp` itself uses as header keys,
`"vert"` and `"frag"`; the other stages get names of their own. -/
def ShaderStageToStr (stage : ShaderStages) : String :=
  match stage with
  | .None => ""
  | .Vertex => "vert"
  | .TessControl => "tesc"
  | .TessEval => "tese"
  | .Geometry => "geom"
  | .Fragment => "frag"

/-- Modelled from the spec: the member `ShaderType::isBuffer` (not among the sources):
the buffer kinds of section 3, `Uniform`, `ROBuffer` and `RWBuffer`. -/
def ShaderType.isBuffer (type : ShaderType) : Bool :=
  type.baseType = .Uniform ∨ type.baseType = .ROBuffer ∨ type.baseType = .RWBuffer

/-- The functions of `NameHelper` that `Generator.cpp` calls and whose definitions are not
among the sources, taken as parameters. -/
structure Helpers where
  GetBindingTableName : ShaderType → String
  GetGeneralTypeName : ShaderType → String
  GetBindingIndexText : Nat → String

/-- A choice of the helper functions for the places where a property is evaluated at a
concrete input: each one returns a fixed marker text. -/
def Helpers.markers : Helpers :=
  ⟨fun _ => "TABLE", fun _ => "TYPE", fun _ => "INDEX"⟩

/-- Modelled from the spec: the struct `StructMember` (not among the sources), with the
members `emitStruct` reads. -/
structure StructMember where
  name : String
  baseType : ShaderBaseType
  size : Nat
  dims0 : Nat
  dims1 : Nat
  arraySize : Nat
  deriving DecidableEq, Repr

/-- Modelled from the spec: the struct `InterfaceVariable` (not among the sources). -/
structure InterfaceVariable where
  name : String
  type : ShaderType
  arraySize : Nat
  location : Nat
  deriving DecidableEq, Repr

/-- Modelled from the spec: the struct `UniformVariable` (not among the sources);
`type.structName` stands for `type->buffer.structType->userStruct.structName`. -/
structure UniformVariable where
  name : String
  type : ShaderType
  deriving DecidableEq, Repr

/-- Modelled from the spec: the struct `BindingVariable` (not among the sources). -/
structure BindingVariable where
  name : String
  type : ShaderType
  deriving DecidableEq, Repr

/-- Modelled from the spec: the struct `SubpassInput` (not among the sources). -/
structure SubpassInput where
  name : String
  type : ShaderBaseType
  index : Nat
  deriving DecidableEq, Repr

/-- Modelled from the spec: the struct `BindingTableSizes` (not among the sources): the
maximum slot count of each resource category. -/
structure BindingTableSizes where
  samplers : Nat
  images : Nat
  buffers : Nat
  roTexels : Nat
  rwTexels : Nat
  deriving DecidableEq, Repr

/-- The ways a member function of `Generator` ends without returning. -/
inductive Failure where
  /-- `ERROR(mkstr("Unmappable numeric type [%u:%u:%ux%u]", ...))` in `emitStruct`. -/
  | UnmappableNumericType (base : ShaderBaseType) (size dims0 dims1 : Nat)
  /-- `ERROR(mkstr("Unmappable binding type for '%s'", ...))` in `emitBinding`. -/
  | UnmappableBindingType (name : String)
  /-- `ERROR(mkstr("Invalid binding extra type for '%s'", ...))` in `emitBinding`. -/
  | InvalidBindingExtra (name : String)
  /-- `ERROR("Invalid type for set and binding indices")` in `getSetAndBinding`. -/
  | InvalidSetAndBindingType
  /-- A write through `currentFunc_` while it is `nullptr`. -/
  | NullDereference
  /-- The `std::out_of_range` of `std::string::replace` at `npos`. -/
  | OutOfRange
  deriving DecidableEq, Repr

/-- The data members of the class `Generator`. -/
structure Generator where
  tableSizes_ : BindingTableSizes
  globals_ : String
  stageHeaders_ : List (String × String)
  stageFunctions_ : List (String × String)
  currentFunc_ : Option String
  uniqueId_ : Nat
  localId_ : Nat
  indentString_ : String
  bindingEmitMask_ : Nat
  deriving DecidableEq, Repr

/-- The map after `m[k] << text`: `operator[]` adds an empty stream under `k` when there
is none, and the text is appended to the stream under `k`. -/
def umAppend (m : List (String × String)) (k text : String) : List (String × String) :=
  umAssign m k ((umFind m k).getD "" ++ text)

/-- The map after `if (m.find(k) == m.end()) { m[k] = std::stringstream(); }`. -/
def umEnsure (m : List (String × String)) (k : String) : List (String × String) :=
  match umFind m k with
  | none => umAssign m k ""
  | some _ => m

/-- The text `mkstr("[%u]", uint32(n))`. -/
def mkstrArray (n : Nat) : String :=
  "[" ++ toString n ++ "]"

/-- The statement `*currentFunc_ << text`. -/
def Generator.writeFunc (g : Generator) (text : String) : Except Failure Generator :=
  match g.currentFunc_ with
  | none => .error .NullDereference
  | some k => .ok { g with stageFunctions_ := umAppend g.stageFunctions_ k text }

/-- The constructor `Generator::Generator(tableSizes)`. -/
def Generator.new (tableSizes : BindingTableSizes) : Generator where
  tableSizes_ := tableSizes
  globals_ := "" ++ ("/// This file generated by vslc\n" ++ "#version 450 core\n" ++
    "#extension GL_EXT_scalar_block_layout : require\n" ++ "\n")
  stageHeaders_ := []
  stageFunctions_ := []
  currentFunc_ := none
  uniqueId_ := 0
  localId_ := 0
  indentString_ := ""
  bindingEmitMask_ := 0

/-- The member `Generator::getStageString(stage, outstring)`: the returned flag and the
text left in `*outstring`. The function is `const`: it has no new state to return. -/
def Generator.getStageString (g : Generator) (stage : ShaderStages) : Bool × String :=
  let stageName := ShaderStageToStr stage
  match umFind g.stageHeaders_ stageName, umFind g.stageFunctions_ stageName with
  | some hstr, some fstr => (true, g.globals_ ++ hstr ++ fstr)
  | _, _ => (false, "")

/-- The member `Generator::setCurrentStage(stage)`. -/
def Generator.setCurrentStage (g : Generator) (stage : ShaderStages) :
    Except Failure Generator :=
  if stage = .None then
    match g.currentFunc_ with
    | none => .error .NullDereference
    | some k =>
      .ok { g with
        stageFunctions_ := umAppend g.stageFunctions_ k ("\x7d\n" ++ "\n")
        currentFunc_ := none
        indentString_ := "" }
  else
    let name := ShaderStageToStr stage
    .ok { g with
      stageHeaders_ := umEnsure g.stageHeaders_ name
      stageFunctions_ := umAppend (umAssign g.stageFunctions_ name "") name
        "void main()\n\x7b\n"
      currentFunc_ := some name
      indentString_ := "\t"
      bindingEmitMask_ := 0 }

/-- The loop of `emitStruct` over the members, on the text of `globals_`. -/
def emitStructMembers (globals : String) : List StructMember → Except Failure String
  | [] => .ok globals
  | mem :: rest =>
    let mtype := GetNumericTypeName mem.baseType mem.size mem.dims0 mem.dims1
    if mtype = "" then
      .error (.UnmappableNumericType mem.baseType mem.size mem.dims0 mem.dims1)
    else
      let arr := if mem.arraySize ≠ 1 then mkstrArray mem.arraySize else ""
      emitStructMembers (globals ++ ("\t" ++ mtype ++ " " ++ mem.name ++ arr ++ ";\n")) rest

/-- The member `Generator::emitStruct(name, members)`. -/
def Generator.emitStruct (g : Generator) (name : String) (members : List StructMember) :
    Except Failure Generator :=
  match emitStructMembers (g.globals_ ++ ("struct " ++ name ++ "_t \x7b" ++ "\n")) members with
  | .error e => .error e
  | .ok globals => .ok { g with globals_ := globals ++ ("\x7d;\n" ++ "\n") }

/-- The member `Generator::emitVertexInput(var)`. -/
def Generator.emitVertexInput (g : Generator) (var : InterfaceVariable) : Generator :=
  let vtype := GetNumericTypeName var.type.baseType var.type.numeric.size
    var.type.numeric.dims0 var.type.numeric.dims1
  let arr := if var.arraySize ≠ 1 then mkstrArray var.arraySize else ""
  { g with
    stageHeaders_ := umAppend (umEnsure g.stageHeaders_ "vert") "vert"
      ("layout(location = " ++ toString var.location ++ ") in " ++ vtype ++ " " ++
        var.name ++ arr ++ ";\n" ++ "\n") }

/-- The member `Generator::emitFragmentOutput(var)`. -/
def Generator.emitFragmentOutput (g : Generator) (var : InterfaceVariable) : Generator :=
  let vtype := GetNumericTypeName var.type.baseType var.type.numeric.size
    var.type.numeric.dims0 var.type.numeric.dims1
  { g with
    stageHeaders_ := umAppend (umEnsure g.stageHeaders_ "frag") "frag"
      ("layout(location = " ++ toString var.location ++ ") out " ++ vtype ++ " " ++
        var.name ++ ";\n" ++ "\n") }

/-- The member `Generator::emitUniform(unif)`. -/
def Generator.emitUniform (g : Generator) (unif : UniformVariable) : Generator :=
  { g with
    globals_ := g.globals_ ++ "layout(set = 1, binding = 0, scalar) uniform _UBUFFER0_ \x7b\n" ++
      ("\t" ++ unif.type.structName ++ "_t " ++ unif.name ++ ";\n") ++ ("\x7d;\n" ++ "\n") }

/-- The member `Generator::getSetAndBinding(bind, set, binding, tableSize)`: the values
left in `*set`, `*binding` and `*tableSize`. -/
def Generator.getSetAndBinding (g : Generator) (bind : BindingVariable) :
    Except Failure (Nat × Nat × Nat) :=
  match bind.type.baseType with
  | .Sampler => .ok (0, 0, g.tableSizes_.samplers)
  | .Image => .ok (0, 1, g.tableSizes_.images)
  | .RWBuffer => .ok (0, 2, g.tableSizes_.buffers)
  | .ROBuffer => .ok (0, 2, g.tableSizes_.buffers)
  | .ROTexels => .ok (0, 3, g.tableSizes_.roTexels)
  | .RWTexels => .ok (0, 4, g.tableSizes_.rwTexels)
  | _ => .error .InvalidSetAndBindingType

/-- The member `Generator::emitBinding(bind)`. -/
def Generator.emitBinding (ext : Helpers) (g : Generator) (bind : BindingVariable) :
    Except Failure Generator :=
  let named := GetBindingTypeName bind.type ""
  let btype := named.1
  let extra := named.2
  if btype = "" then .error (.UnmappableBindingType bind.name)
  else if extra = "!" then .error (.InvalidBindingExtra bind.name)
  else
    let tableName := ext.GetBindingTableName bind.type
    match g.getSetAndBinding bind with
    | .error e => .error e
    | .ok (set, binding, tableSize) =>
      let globals := g.globals_ ++ ("layout(set = " ++ toString set ++ ", binding = " ++
        toString binding ++ (if extra ≠ "" then ", " ++ extra else "") ++ ") ")
      if bind.type.isBuffer then
        .ok { g with
          globals_ := globals ++
            ((if bind.type.baseType = .ROBuffer then "readonly " else "") ++ "buffer ") ++
            ("_BUFFER" ++ toString g.uniqueId_ ++ "_ \x7b\n") ++
            ("\t" ++ bind.type.structName ++ "_t _data_[];\n") ++
            ("\x7d " ++ bind.name ++ "[" ++ toString tableSize ++ "]") ++ (";\n" ++ "\n")
          uniqueId_ := (g.uniqueId_ + 1) % 2 ^ 32 }
      else
        .ok { g with
          globals_ := globals ++
            ("uniform " ++ btype ++ " " ++ tableName ++ "[" ++ toString tableSize ++ "]") ++
            (";\n" ++ "\n") }

/-- The member `Generator::emitSubpassInput(input)`. -/
def Generator.emitSubpassInput (g : Generator) (input : SubpassInput) : Generator :=
  let pfx :=
    if input.type = .Unsigned then "u" else if input.type = .Signed then "i" else ""
  let index := input.index % 2 ^ 32
  { g with
    stageHeaders_ := umAppend (umEnsure g.stageHeaders_ "frag") "frag"
      ("layout(set = 2, binding = " ++ toString index ++ ", input_attachment_index = " ++
        toString index ++ ") " ++ "uniform " ++ pfx ++ "subpassInput " ++ input.name ++
        ";\n" ++ "\n") }

/-- The member `Generator::emitLocal(var)`; its last statement is `localId_ += 1`. -/
def Generator.emitLocal (g : Generator) (var : Variable) : Generator :=
  let type := GetNumericTypeName var.dataType.baseType var.dataType.numeric.size
    var.dataType.numeric.dims0 1
  let flat := if var.flat then "flat " else ""
  let headers := umEnsure (umEnsure g.stageHeaders_ "vert") "frag"
  let headers := umAppend headers "vert"
    ("layout(location = " ++ toString g.localId_ ++ ") " ++ flat ++ "out " ++ type ++
      " _vert_" ++ var.name ++ ";\n" ++ "\n")
  let headers := umAppend headers "frag"
    ("layout(location = " ++ toString g.localId_ ++ ") " ++ flat ++ "in " ++ type ++
      " _frag_" ++ var.name ++ ";\n" ++ "\n")
  { g with stageHeaders_ := headers, localId_ := g.localId_ + 1 }

/-- The value `icount` of `emitBindingIndices`: `(maxIndex + 2) / 2` in `uint32`. -/
def bindingIndexCount (maxIndex : Nat) : Nat :=
  (maxIndex + 2) % 2 ^ 32 / 2

/-- The member `Generator::emitBindingIndices(maxIndex)`. -/
def Generator.emitBindingIndices (g : Generator) (maxIndex : Nat) : Generator :=
  let icount := bindingIndexCount maxIndex
  let globals := g.globals_ ++ "layout (push_constant) uniform _BINDING_INDICES_ \x7b\n"
  let globals := (List.range icount).foldl
    (fun text i => text ++ ("\tuint index" ++ toString i ++ ";\n")) globals
  { g with globals_ := globals ++ "\x7d _bidx_;\n\n" }

/-- The member `Generator::emitDeclaration(var)`. -/
def Generator.emitDeclaration (ext : Helpers) (g : Generator) (var : Variable) :
    Except Failure Generator :=
  g.writeFunc (g.indentString_ ++ ext.GetGeneralTypeName var.dataType ++ " " ++ var.name ++
    ";\n")

/-- The member `Generator::emitAssignment(left, op, right)`. -/
def Generator.emitAssignment (g : Generator) (left op right : String) :
    Except Failure Generator :=
  g.writeFunc (g.indentString_ ++ left ++ " " ++ op ++ " " ++ right ++ ";\n")

/-- The text after `repl.replace(repl.find("{}"), 2, value)`, `none` when `find` returns
`npos`. -/
def replacePlaceholder : List Char → List Char → Option (List Char)
  | [], _ => none
  | c :: rest, value =>
    if c = '\x7b' ∧ rest.head? = some '\x7d' then some (value ++ rest.tail)
    else (replacePlaceholder rest value).map (fun tail => c :: tail)

/-- The member `Generator::emitImageStore(imStore, value)`. -/
def Generator.emitImageStore (g : Generator) (imStore value : String) :
    Except Failure Generator :=
  match replacePlaceholder imStore.data value.data with
  | none => .error .OutOfRange
  | some repl => g.writeFunc (g.indentString_ ++ String.mk repl ++ ";\n")

/-- The value `1u << index`. For `index ≥ 32` the C++ standard leaves the shift undefined;
the compiled code takes the shift count modulo 32, as the 32-bit shift of the processor
does, and that is the value given here. -/
def bindingBit (index : Nat) : Nat :=
  1 <<< (index % 32)

/-- The member `Generator::emitBindingIndex(index)`. -/
def Generator.emitBindingIndex (ext : Helpers) (g : Generator) (index : Nat) :
    Except Failure Generator :=
  if g.bindingEmitMask_ &&& bindingBit index ≠ 0 then .ok g
  else
    let bindstr := ext.GetBindingIndexText index
    let bindname := "_bidx" ++ toString index ++ "_"
    match g.writeFunc (g.indentString_ ++ "uint " ++ bindname ++ " = " ++ bindstr ++ ";\n") with
    | .error e => .error e
    | .ok g1 => .ok { g1 with bindingEmitMask_ := g1.bindingEmitMask_ ||| bindingBit index }

/-- The member `Generator::emitIf(condition)`. -/
def Generator.emitIf (g : Generator) (condition : String) : Except Failure Generator :=
  match g.writeFunc (g.indentString_ ++ "if (" ++ condition ++ ") \x7b\n") with
  | .error e => .error e
  | .ok g1 => .ok { g1 with indentString_ := g1.indentString_ ++ "\t" }

/-- The member `Generator::emitElif(condition)`. -/
def Generator.emitElif (g : Generator) (condition : String) : Except Failure Generator :=
  match g.writeFunc (g.indentString_ ++ "else if (" ++ condition ++ ") \x7b\n") with
  | .error e => .error e
  | .ok g1 => .ok { g1 with indentString_ := g1.indentString_ ++ "\t" }

/-- The member `Generator::emitElse()`. -/
def Generator.emitElse (g : Generator) : Except Failure Generator :=
  match g.writeFunc (g.indentString_ ++ "else \x7b\n") with
  | .error e => .error e
  | .ok g1 => .ok { g1 with indentString_ := g1.indentString_ ++ "\t" }

/-- The text `s.substr(0, s.length() - 1)`: the count is computed in `size_t`, and a
count past the end of the string takes the whole string. -/
def substrDropLast (s : String) : String :=
  String.mk (s.data.take ((s.length + 2 ^ 64 - 1) % 2 ^ 64))

/-- The member `Generator::emitBlockClose()`. -/
def Generator.emitBlockClose (g : Generator) : Except Failure Generator :=
  let indent := substrDropLast g.indentString_
  { g with indentString_ := indent }.writeFunc (indent ++ "\x7d\n")

/-- A call of a member function of `Generator` that changes the generator. -/
inductive GenOp where
  | setCurrentStage (stage : ShaderStages)
  | emitStruct (name : String) (members : List StructMember)
  | emitVertexInput (var : InterfaceVariable)
  | emitFragmentOutput (var : InterfaceVariable)
  | emitUniform (unif : UniformVariable)
  | emitBinding (bind : BindingVariable)
  | emitSubpassInput (input : SubpassInput)
  | emitLocal (var : Variable)
  | emitBindingIndices (maxIndex : Nat)
  | emitDeclaration (var : Variable)
  | emitAssignment (left op right : String)
  | emitImageStore (imStore value : String)
  | emitBindingIndex (index : Nat)
  | emitIf (condition : String)
  | emitElif (condition : String)
  | emitElse
  | emitBlockClose
  deriving DecidableEq, Repr

/-- The generator after one call, or the way the call ends the pass. -/
def Generator.step (ext : Helpers) (g : Generator) : GenOp → Except Failure Generator
  | .setCurrentStage stage => g.setCurrentStage stage
  | .emitStruct name members => g.emitStruct name members
  | .emitVertexInput var => .ok (g.emitVertexInput var)
  | .emitFragmentOutput var => .ok (g.emitFragmentOutput var)
  | .emitUniform unif => .ok (g.emitUniform unif)
  | .emitBinding bind => g.emitBinding ext bind
  | .emitSubpassInput input => .ok (g.emitSubpassInput input)
  | .emitLocal var => .ok (g.emitLocal var)
  | .emitBindingIndices maxIndex => .ok (g.emitBindingIndices maxIndex)
  | .emitDeclaration var => g.emitDeclaration ext var
  | .emitAssignment left op right => g.emitAssignment left op right
  | .emitImageStore imStore value => g.emitImageStore imStore value
  | .emitBindingIndex index => g.emitBindingIndex ext index
  | .emitIf condition => g.emitIf condition
  | .emitElif condition => g.emitElif condition
  | .emitElse => g.emitElse
  | .emitBlockClose => g.emitBlockClose

/-- The generator after a sequence of calls, in call order; the first call that ends the
pass ends the sequence. -/
def Generator.run (ext : Helpers) (g : Generator) : List GenOp → Except Failure Generator
  | [] => .ok g
  | op :: rest =>
    match g.step ext op with
    | .error e => .error e
    | .ok g1 => Generator.run ext g1 rest

/-- The line of the push-constant field number `i`. -/
def indexFieldLine (i : Nat) : String :=
  "\tuint index" ++ toString i ++ ";\n"

/-- The calls allowed between two stage changes: every call except `setCurrentStage`. -/
def GenOp.keepsStage (op : GenOp) : Prop :=
  ∀ stage, op ≠ .setCurrentStage stage

/-- The line `emitBindingIndex(index)` writes at indentation `indent`. -/
def bindingIndexLine (ext : Helpers) (indent : String) (index : Nat) : String :=
  indent ++ "uint " ++ ("_bidx" ++ toString index ++ "_") ++ " = " ++
    ext.GetBindingIndexText index ++ ";\n"

/-- Whether a call is a call of `emitLocal`. -/
def GenOp.isEmitLocal : GenOp → Bool
  | .emitLocal _ => true
  | _ => false

/-- The declaration `emitLocal` writes for `var` at location `location`; `direction` is
`"out "` with mark `" _vert_"` in the vertex header and `"in "` with mark `" _frag_"` in
the fragment header. -/
def localDeclaration (location : Nat) (var : Variable) (direction mark : String) : String :=
  "layout(location = " ++ toString location ++ ") " ++ (if var.flat then "flat " else "") ++
    direction ++
    GetNumericTypeName var.dataType.baseType var.dataType.numeric.size
      var.dataType.numeric.dims0 1 ++
    mark ++ var.name ++ ";\n" ++ "\n"

/-- The resource categories of the slot table of the specification. -/
inductive ResourceCategory where
  | Samplers | Images | Buffers | ROTexels | RWTexels
  deriving DecidableEq, Repr

/-- The category of a type kind, in the words of the specification: samplers, images,
read-only and read-write buffers, read-only texel buffers, read-write texel buffers; the
other kinds have none. -/
def resourceCategory : ShaderBaseType → Option ResourceCategory
  | .Sampler => some .Samplers
  | .Image => some .Images
  | .ROBuffer => some .Buffers
  | .RWBuffer => some .Buffers
  | .ROTexels => some .ROTexels
  | .RWTexels => some .RWTexels
  | _ => none

/-- The numeric kinds of section 3 of the specification: `Boolean`, `Signed`, `Unsigned`
and `Float`. -/
def ShaderBaseType.isNumeric : ShaderBaseType → Bool
  | .Boolean => true
  | .Signed => true
  | .Unsigned => true
  | .Float => true
  | _ => false

/-- The token `GetNumericTypeName` gives for a type descriptor, called as `Generator.cpp`
calls it: with `baseType`, `numeric.size`, `numeric.dims[0]` and `numeric.dims[1]`. -/
def numericTokenOf (type : ShaderType) : String :=
  GetNumericTypeName type.baseType type.numeric.size type.numeric.dims0 type.numeric.dims1

/-- Whether a builtin name is a matrix name, `float<A>x<B>`: it starts with `float` and
has an `x` after that. -/
def isMatrixName (name : String) : Bool :=
  name.data.take 5 == "float".data && (name.data.drop 5).contains 'x'

/-- Whether a call is an `emitBinding` of a buffer-kind resource. -/
def GenOp.isBufferBinding : GenOp → Bool
  | .emitBinding bind => bind.type.isBuffer
  | _ => false

/-- The name `emitBinding` gives the anonymous block number `id`. -/
def bufferBlockName (id : Nat) : String :=
  "_BUFFER" ++ toString id ++ "_"

/-- The number a list of decimal digit characters stands for. -/
def decimalValue (digits : List Char) : Nat :=
  digits.foldl (fun acc c => acc * 10 + (c.toNat - 48)) 0
/-- The declaration `emitBinding` writes for the buffer binding `bind` when the block gets
number `id` and the table has `tableSize` entries. -/
def bufferBlockDeclaration (bind : BindingVariable) (id tableSize : Nat) : String :=
  "layout(set = 0, binding = 2, std430) " ++
    ((if bind.type.baseType = .ROBuffer then "readonly " else "") ++ "buffer ") ++
    (bufferBlockName id ++ " \x7b\n") ++
    ("\t" ++ bind.type.structName ++ "_t _data_[];\n") ++
    ("\x7d " ++ bind.name ++ "[" ++ toString tableSize ++ "]") ++ (";\n" ++ "\n")

/-- Every buffer of the map `m` is a buffer of the map `m1`, and its text in `m1` starts
with the text it has in `m`. -/
def BuffersGrow (m m1 : List (String × String)) : Prop :=
  ∀ name text, umFind m name = some text → ∃ more, umFind m1 name = some (text ++ more)

/-- Whether a call opens a block: `emitIf`, `emitElif` or `emitElse`. -/
def GenOp.opensBlock : GenOp → Bool
  | .emitIf _ => true
  | .emitElif _ => true
  | .emitElse => true
  | _ => false

/-- The opening line of a block-opening call, without its indentation. -/
def GenOp.openingLine : GenOp → String
  | .emitIf condition => "if (" ++ condition ++ ") \x7b\n"
  | .emitElif condition => "else if (" ++ condition ++ ") \x7b\n"
  | .emitElse => "else \x7b\n"
  | _ => ""

/-- The number of open blocks after a sequence of block-opening calls and `emitBlockClose`
calls that starts with `depth` open blocks; `none` when a call closes a block while none
is open, or when the sequence holds another call. -/
def blockDepth : List GenOp → Nat → Option Nat
  | [], depth => some depth
  | .emitBlockClose :: _, 0 => none
  | .emitBlockClose :: rest, depth + 1 => blockDepth rest depth
  | op :: rest, depth => if op.opensBlock then blockDepth rest (depth + 1) else none

/-- The text of `depth` tabs. -/
def tabs (depth : Nat) : String :=
  String.mk (List.replicate depth '\t')

/-! ## Lemmas on the map operations -/

theorem umFind_umAssign_self {β : Type} (m : List (String × β)) (k : String) (v : β) :
    umFind (umAssign m k v) k = some v := by
  induction m with
  | nil => simp [umAssign, umFind]
  | cons hd tl ih =>
    obtain ⟨k', v'⟩ := hd
    by_cases hk : k' = k
    · simp [umAssign, umFind, hk]
    · simp [umAssign, umFind, hk, ih]

theorem umFind_umAssign_other {β : Type} (m : List (String × β)) (k n : String) (v : β)
    (hn : k ≠ n) : umFind (umAssign m k v) n = umFind m n := by
  induction m with
  | nil => simp [umAssign, umFind, hn]
  | cons hd tl ih =>
    obtain ⟨k', v'⟩ := hd
    by_cases hk : k' = k
    · subst hk
      simp [umAssign, umFind, hn]
    · by_cases hk' : k' = n
      · subst hk'
        simp [umAssign, umFind, hk]
      · simp [umAssign, umFind, hk, hk', ih]

theorem umFind_eq_find? {β : Type} (m : List (String × β)) (k : String) :
    umFind m k = (m.find? (fun entry => entry.1 == k)).map Prod.snd := by
  induction m with
  | nil => rfl
  | cons hd tl ih =>
    obtain ⟨k', v'⟩ := hd
    by_cases hk : k' = k
    · simp [umFind, List.find?_cons, hk]
    · have hb : (k' == k) = false := by simpa using hk
      simp [umFind, List.find?_cons, hk, hb, ih]

theorem umFind_eq_none_iff {β : Type} (m : List (String × β)) (k : String) :
    umFind m k = none ↔ k ∉ m.map Prod.fst := by
  induction m with
  | nil => simp [umFind]
  | cons hd tl ih =>
    obtain ⟨k', v'⟩ := hd
    by_cases hk : k' = k
    · simp [umFind, hk]
    · have hk2 : ¬ k = k' := fun h => hk h.symm
      simp only [umFind, hk, if_false, ih, List.map_cons, List.mem_cons, hk2, false_or]

/-- A call of `addType` keeps every descriptor that is already stored. -/
theorem addType_keeps_stored (tm : TypeManager) (name n : String) (t t1 : ShaderType)
    (h : umFind tm.addedTypes_ n = some t1) :
    umFind (tm.addType name t).2.addedTypes_ n = some t1 := by
  unfold TypeManager.addType
  cases hf : umFind tm.addedTypes_ name with
  | some _ => simpa using h
  | none =>
    have hne : name ≠ n := by
      intro heq
      rw [heq, h] at hf
      cases hf
    simpa [umFind_umAssign_other _ _ _ _ hne] using h

/-- A call of `addType` under a stored name returns `nullptr` and changes nothing. -/
theorem addType_of_stored (tm : TypeManager) (name : String) (t1 t2 : ShaderType)
    (h : umFind tm.addedTypes_ name = some t1) : tm.addType name t2 = (none, tm) := by
  simp [TypeManager.addType, h]

/-- A sequence of `addType` calls keeps every descriptor that is already stored. -/
theorem addTypes_keeps_stored (ops : List (String × ShaderType)) (tm : TypeManager)
    (n : String) (t1 : ShaderType) (h : umFind tm.addedTypes_ n = some t1) :
    umFind (tm.addTypes ops).addedTypes_ n = some t1 := by
  induction ops generalizing tm with
  | nil => simpa [TypeManager.addTypes] using h
  | cons op rest ih =>
    obtain ⟨name, t⟩ := op
    simp only [TypeManager.addTypes]
    exact ih _ (addType_keeps_stored tm name n t t1 h)

/-! ## TypeManager: the properties -/

/-- C1 (evaluation at the failing input): on a registry with no user types,
`addType("float", t)` with the descriptor of `int` succeeds, stores the descriptor, and
`getType("float")` then returns it in place of the builtin descriptor of `float`. -/
theorem C1_addType_float_shadows_builtin :
    TypeManager.new.getType "float" = some (ShaderType.ofNumeric .Float 4 1 1) ∧
    (TypeManager.new.addType "float" (ShaderType.ofNumeric .Signed 4 1 1)).1
      = some (ShaderType.ofNumeric .Signed 4 1 1) ∧
    (TypeManager.new.addType "float" (ShaderType.ofNumeric .Signed 4 1 1)).2
      ≠ TypeManager.new ∧
    (TypeManager.new.addType "float" (ShaderType.ofNumeric .Signed 4 1 1)).2.getType "float"
      = some (ShaderType.ofNumeric .Signed 4 1 1) := by
  refine ⟨?_, ?_, ?_, ?_⟩ <;> decide

/-- C2: for every registry, every name that is not a key of the user-type map and every
descriptor `t`, `addType(name, t)` returns a pointer to `t` (it succeeds) and a following
`getType(name)` returns exactly `t`. -/
theorem C2_getType_after_addType (tm : TypeManager) (name : String) (t : ShaderType)
    (h : umFind tm.addedTypes_ name = none) :
    (tm.addType name t).1 = some t ∧ (tm.addType name t).2.getType name = some t := by
  unfold TypeManager.addType
  rw [h]
  refine ⟨rfl, ?_⟩
  simp [TypeManager.getType, umFind_umAssign_self]

theorem C2_getType_after_addType_witness :
    umFind (TypeManager.new.addType "Light" (ShaderType.ofBuffer .Struct "Light")).2.addedTypes_
        "float" = none ∧
    (((TypeManager.new.addType "Light" (ShaderType.ofBuffer .Struct "Light")).2.addType
        "float" (ShaderType.ofNumeric .Float 4 2 1)).1
        = some (ShaderType.ofNumeric .Float 4 2 1) ∧
     ((TypeManager.new.addType "Light" (ShaderType.ofBuffer .Struct "Light")).2.addType
        "float" (ShaderType.ofNumeric .Float 4 2 1)).2.getType "float"
        = some (ShaderType.ofNumeric .Float 4 2 1)) :=
  ⟨by decide, C2_getType_after_addType _ "float" (ShaderType.ofNumeric .Float 4 2 1)
    (by decide)⟩

/-- C3: once `addType(name, t1)` has succeeded on a registry, then after any further
sequence of `addType` calls a call `addType(name, t2)` returns `nullptr` and leaves the
registry as it was, so `getType` answers as before for every name, and `getType(name)` is
still the first descriptor `t1`. -/
theorem C3_readd_fails_without_mutation (tm0 : TypeManager) (name : String)
    (t1 t2 : ShaderType) (ops : List (String × ShaderType))
    (h : (tm0.addType name t1).1 ≠ none) :
    ((tm0.addType name t1).2.addTypes ops).addType name t2
      = (none, (tm0.addType name t1).2.addTypes ops) ∧
    (∀ n, (((tm0.addType name t1).2.addTypes ops).addType name t2).2.getType n
      = ((tm0.addType name t1).2.addTypes ops).getType n) ∧
    ((tm0.addType name t1).2.addTypes ops).getType name = some t1 := by
  have hstored : umFind (tm0.addType name t1).2.addedTypes_ name = some t1 := by
    revert h
    unfold TypeManager.addType
    cases hf : umFind tm0.addedTypes_ name with
    | some _ => simp
    | none => simp [umFind_umAssign_self]
  have hkept := addTypes_keeps_stored ops _ name t1 hstored
  have hfail : ((tm0.addType name t1).2.addTypes ops).addType name t2
      = (none, (tm0.addType name t1).2.addTypes ops) :=
    addType_of_stored _ name t1 t2 hkept
  refine ⟨hfail, ?_, ?_⟩
  · intro n
    rw [hfail]
  · simp [TypeManager.getType, hkept]

theorem C3_readd_fails_without_mutation_witness :
    (TypeManager.new.addType "Light" (ShaderType.ofBuffer .Struct "Light")).1 ≠ none ∧
    (((TypeManager.new.addType "Light" (ShaderType.ofBuffer .Struct "Light")).2.addTypes
        [("float", ShaderType.ofVoid)]).addType "Light" ShaderType.ofVoid
      = (none,
          (TypeManager.new.addType "Light" (ShaderType.ofBuffer .Struct "Light")).2.addTypes
            [("float", ShaderType.ofVoid)]) ∧
     (∀ n,
      ((((TypeManager.new.addType "Light" (ShaderType.ofBuffer .Struct "Light")).2.addTypes
        [("float", ShaderType.ofVoid)]).addType "Light" ShaderType.ofVoid).2.getType n
      = ((TypeManager.new.addType "Light" (ShaderType.ofBuffer .Struct "Light")).2.addTypes
          [("float", ShaderType.ofVoid)]).getType n)) ∧
     ((TypeManager.new.addType "Light" (ShaderType.ofBuffer .Struct "Light")).2.addTypes
        [("float", ShaderType.ofVoid)]).getType "Light"
      = some (ShaderType.ofBuffer .Struct "Light")) :=
  ⟨by decide, C3_readd_fails_without_mutation TypeManager.new "Light"
    (ShaderType.ofBuffer .Struct "Light") ShaderType.ofVoid [("float", ShaderType.ofVoid)]
    (by decide)⟩

/-- C4: for every registry and name, `getType(name)` equals the reference lookup "user
map first, then builtin table", and it returns nothing exactly when the name is a key of
neither the user map nor the builtin table. -/
theorem C4_getType_eq_reference (tm : TypeManager) (name : String) :
    tm.getType name = resolveRef tm name ∧
    (tm.getType name = none ↔
      name ∉ tm.addedTypes_.map Prod.fst ∧ name ∉ BuiltinTypes_.map Prod.fst) := by
  constructor
  · unfold TypeManager.getType resolveRef
    rw [List.find?_append, umFind_eq_find? tm.addedTypes_, umFind_eq_find? BuiltinTypes_]
    cases List.find? (fun entry => entry.1 == name) tm.addedTypes_ with
    | some e => simp
    | none =>
      cases List.find? (fun entry => entry.1 == name) BuiltinTypes_ with
      | some e => simp
      | none => simp
  · rw [← umFind_eq_none_iff, ← umFind_eq_none_iff]
    unfold TypeManager.getType
    cases umFind tm.addedTypes_ name with
    | some e => simp
    | none =>
      cases umFind BuiltinTypes_ name with
      | some e => simp
      | none => simp

/-! ## ScopeManager: the properties -/

theorem hasGlobal_iff (sm : ScopeManager) (n : String) :
    sm.hasGlobal n = true ↔ ∃ v ∈ sm.allGlobals_, v.name = n := by
  simp [ScopeManager.hasGlobal, List.find?_isSome]

theorem hasGlobal_addGlobal (sm : ScopeManager) (var : Variable) (n : String) :
    (sm.addGlobal var).2.hasGlobal n = true ↔ sm.hasGlobal n = true ∨ var.name = n := by
  unfold ScopeManager.addGlobal
  by_cases h : sm.hasGlobal var.name = true
  · rw [if_pos h]
    constructor
    · intro hn
      exact Or.inl hn
    · rintro (hn | hn)
      · exact hn
      · rw [← hn]
        exact h
  · rw [if_neg h]
    simp only [hasGlobal_iff, List.mem_append, List.mem_singleton]
    constructor
    · rintro ⟨v, hv | hv, hvn⟩
      · exact Or.inl ⟨v, hv, hvn⟩
      · exact Or.inr (hv ▸ hvn)
    · rintro (⟨v, hv, hvn⟩ | hn)
      · exact ⟨v, Or.inl hv, hvn⟩
      · exact ⟨var, Or.inr rfl, hn⟩

theorem addGlobal_fst (sm : ScopeManager) (var : Variable) :
    (sm.addGlobal var).1 = !sm.hasGlobal var.name := by
  unfold ScopeManager.addGlobal
  by_cases h : sm.hasGlobal var.name = true
  · simp [h]
  · simp [h]

theorem nodup_addGlobal (sm : ScopeManager) (var : Variable)
    (h : (sm.allGlobals_.map Variable.name).Nodup) :
    ((sm.addGlobal var).2.allGlobals_.map Variable.name).Nodup := by
  unfold ScopeManager.addGlobal
  by_cases hg : sm.hasGlobal var.name = true
  · rw [if_pos hg]
    exact h
  · rw [if_neg hg]
    have hnot : var.name ∉ sm.allGlobals_.map Variable.name := by
      intro hmem
      obtain ⟨v, hv, hvn⟩ := List.mem_map.1 hmem
      exact hg ((hasGlobal_iff sm var.name).2 ⟨v, hv, hvn⟩)
    simp only [List.map_append, List.map_cons, List.map_nil]
    refine List.Nodup.append h (List.nodup_singleton _) ?_
    intro x hx hx1
    rw [List.mem_singleton] at hx1
    exact hnot (hx1 ▸ hx)

theorem hasGlobal_addGlobals (vars : List Variable) (sm : ScopeManager) (n : String) :
    (sm.addGlobals vars).2.hasGlobal n = true ↔
      sm.hasGlobal n = true ∨ ∃ v ∈ vars, v.name = n := by
  induction vars generalizing sm with
  | nil => simp [ScopeManager.addGlobals]
  | cons var rest ih =>
    simp only [ScopeManager.addGlobals, ih, hasGlobal_addGlobal, List.mem_cons,
      exists_eq_or_imp, or_assoc]

theorem hasGlobal_addGlobals_accepted (vars : List Variable) (sm : ScopeManager)
    (n : String) :
    (sm.addGlobals vars).2.hasGlobal n = true ↔
      sm.hasGlobal n = true ∨
      ∃ p ∈ vars.zip (sm.addGlobals vars).1, p.1.name = n ∧ p.2 = true := by
  induction vars generalizing sm with
  | nil => simp [ScopeManager.addGlobals]
  | cons var rest ih =>
    simp only [ScopeManager.addGlobals, ih, hasGlobal_addGlobal, List.zip_cons_cons,
      List.mem_cons, exists_eq_or_imp, addGlobal_fst]
    by_cases hg : sm.hasGlobal var.name = true
    · by_cases hn : var.name = n
      · subst hn
        simp [hg]
      · simp [hg, hn]
    · by_cases hn : var.name = n
      · subst hn
        simp [hg]
      · simp [hg, hn]

theorem nodup_addGlobals (vars : List Variable) (sm : ScopeManager)
    (h : (sm.allGlobals_.map Variable.name).Nodup) :
    ((sm.addGlobals vars).2.allGlobals_.map Variable.name).Nodup := by
  induction vars generalizing sm with
  | nil => simpa [ScopeManager.addGlobals] using h
  | cons var rest ih =>
    simp only [ScopeManager.addGlobals]
    exact ih _ (nodup_addGlobal sm var h)

/-- C5: when the table already holds a global with the name of `v`, `addGlobal(v)` returns
`false` and the table is identical afterwards; when it holds no global with that name,
`addGlobal(v)` returns `true` and the new list of globals is the old one with `v`
appended. -/
theorem C5_addGlobal_duplicate (sm : ScopeManager) (v : Variable) :
    ((∃ w ∈ sm.allGlobals_, w.name = v.name) → sm.addGlobal v = (false, sm)) ∧
    ((∀ w ∈ sm.allGlobals_, w.name ≠ v.name) →
      sm.addGlobal v = (true, ⟨sm.allGlobals_ ++ [v]⟩)) := by
  constructor
  · intro h
    have hg := (hasGlobal_iff sm v.name).2 h
    simp [ScopeManager.addGlobal, hg]
  · intro h
    have hg : ¬ sm.hasGlobal v.name = true := by
      intro hh
      obtain ⟨w, hw, hwn⟩ := (hasGlobal_iff sm v.name).1 hh
      exact h w hw hwn
    simp [ScopeManager.addGlobal, hg]

theorem C5_addGlobal_duplicate_witness :
    (ScopeManager.mk [⟨"color", ShaderType.ofNumeric .Float 4 4 1, 1, false⟩]).addGlobal
        ⟨"color", ShaderType.ofNumeric .Signed 4 1 1, 1, false⟩
      = (false, ScopeManager.mk [⟨"color", ShaderType.ofNumeric .Float 4 4 1, 1, false⟩]) ∧
    ScopeManager.new.addGlobal ⟨"color", ShaderType.ofNumeric .Float 4 4 1, 1, false⟩
      = (true, ScopeManager.mk
          ([] ++ [⟨"color", ShaderType.ofNumeric .Float 4 4 1, 1, false⟩])) :=
  ⟨(C5_addGlobal_duplicate
      (ScopeManager.mk [⟨"color", ShaderType.ofNumeric .Float 4 4 1, 1, false⟩])
      ⟨"color", ShaderType.ofNumeric .Signed 4 1 1, 1, false⟩).1
      ⟨⟨"color", ShaderType.ofNumeric .Float 4 4 1, 1, false⟩, by simp, rfl⟩,
   (C5_addGlobal_duplicate ScopeManager.new
      ⟨"color", ShaderType.ofNumeric .Float 4 4 1, 1, false⟩).2
      (by simp [ScopeManager.new])⟩

/-- C6: after any sequence of `addGlobal` calls on an empty `ScopeManager`, `hasGlobal(n)`
is true if and only if some variable of the sequence has name `n`, if and only if some
call with a variable of that name returned `true`; and the stored list never holds two
globals of the same name. -/
theorem C6_hasGlobal_reflects_added (vars : List Variable) (n : String) :
    ((ScopeManager.new.addGlobals vars).2.hasGlobal n = true ↔ ∃ v ∈ vars, v.name = n) ∧
    ((ScopeManager.new.addGlobals vars).2.hasGlobal n = true ↔
      ∃ p ∈ vars.zip (ScopeManager.new.addGlobals vars).1, p.1.name = n ∧ p.2 = true) ∧
    ((ScopeManager.new.addGlobals vars).2.allGlobals_.map Variable.name).Nodup := by
  have hempty : ¬ ScopeManager.new.hasGlobal n = true := by
    simp [ScopeManager.new, ScopeManager.hasGlobal]
  refine ⟨?_, ?_, ?_⟩
  · rw [hasGlobal_addGlobals]
    simp [hempty]
  · rw [hasGlobal_addGlobals_accepted]
    simp [hempty]
  · exact nodup_addGlobals vars ScopeManager.new (by simp [ScopeManager.new])

/-! ## NameHelper: the properties -/

/-- The result of `GetNumericTypeName` does not depend on the byte size. -/
theorem GetNumericTypeName_size (base : ShaderBaseType) (size size' r c : Nat) :
    GetNumericTypeName base size r c = GetNumericTypeName base size' r c := rfl

/-- C7: whatever the byte size, for one column and `r` rows in 1..4 `GetNumericTypeName`
returns the scalar or vector token of the base type (`bool/bvecR`, `int/ivecR`,
`uint/uvecR`, `float/vecR`); for base `Float`, `r` rows in 2..4 and `c` columns in 2..4 it
returns `mat<c>x<r>`, columns first, so that for `r ≠ c` the tokens of (rows `r`, columns
`c`) and of (rows `c`, columns `r`) differ. In particular (Boolean, rows 3) gives `bvec3`,
(Float, rows 4, columns 4) gives `mat4x4` and (Float, rows 3, columns 2) gives `mat2x3`. -/
theorem C7_GetNumericTypeName_table (size r c : Nat) (hr : 1 ≤ r ∧ r ≤ 4)
    (hc : 2 ≤ c ∧ c ≤ 4) :
    GetNumericTypeName .Boolean size r 1 = vectorTokenRef .Boolean r ∧
    GetNumericTypeName .Signed size r 1 = vectorTokenRef .Signed r ∧
    GetNumericTypeName .Unsigned size r 1 = vectorTokenRef .Unsigned r ∧
    GetNumericTypeName .Float size r 1 = vectorTokenRef .Float r ∧
    (2 ≤ r → GetNumericTypeName .Float size r c = matrixTokenRef r c) ∧
    (2 ≤ r → r ≠ c →
      GetNumericTypeName .Float size r c ≠ GetNumericTypeName .Float size c r) ∧
    GetNumericTypeName .Boolean size 3 1 = "bvec3" ∧
    GetNumericTypeName .Float size 4 4 = "mat4x4" ∧
    GetNumericTypeName .Float size 3 2 = "mat2x3" := by
  obtain ⟨hr1, hr4⟩ := hr
  obtain ⟨hc2, hc4⟩ := hc
  have hrcases : r = 1 ∨ r = 2 ∨ r = 3 ∨ r = 4 := by omega
  have hccases : c = 2 ∨ c = 3 ∨ c = 4 := by omega
  simp only [GetNumericTypeName_size _ size 0]
  refine ⟨?_, ?_, ?_, ?_, ?_, ?_, rfl, rfl, rfl⟩
  · rcases hrcases with h | h | h | h <;> subst h <;> decide
  · rcases hrcases with h | h | h | h <;> subst h <;> decide
  · rcases hrcases with h | h | h | h <;> subst h <;> decide
  · rcases hrcases with h | h | h | h <;> subst h <;> decide
  · intro h2
    rcases hrcases with h | h | h | h <;> rcases hccases with h' | h' | h' <;>
      subst h <;> subst h' <;> first | omega | decide
  · intro h2 hne
    rcases hrcases with h | h | h | h <;> rcases hccases with h' | h' | h' <;>
      subst h <;> subst h' <;> first | omega | decide

theorem C7_GetNumericTypeName_table_witness :
    GetNumericTypeName .Boolean 4 3 1 = vectorTokenRef .Boolean 3 ∧
    GetNumericTypeName .Signed 4 3 1 = vectorTokenRef .Signed 3 ∧
    GetNumericTypeName .Unsigned 4 3 1 = vectorTokenRef .Unsigned 3 ∧
    GetNumericTypeName .Float 4 3 1 = vectorTokenRef .Float 3 ∧
    (2 ≤ 3 → GetNumericTypeName .Float 4 3 2 = matrixTokenRef 3 2) ∧
    (2 ≤ 3 → 3 ≠ 2 →
      GetNumericTypeName .Float 4 3 2 ≠ GetNumericTypeName .Float 4 2 3) ∧
    GetNumericTypeName .Boolean 4 3 1 = "bvec3" ∧
    GetNumericTypeName .Float 4 4 4 = "mat4x4" ∧
    GetNumericTypeName .Float 4 3 2 = "mat2x3" :=
  C7_GetNumericTypeName_table 4 3 2 (by decide) (by decide)

/-- C8 (counterexample): a `Float` request of byte size 8 with 3 rows and 1 column gets
the token `vec3`, and a `Boolean` request with 3 rows and 2 columns gets the token `bvec3`;
neither is the empty sentinel. -/
theorem C8_counterexample :
    (8 ≠ 4 ∧ GetNumericTypeName .Float 8 3 1 = "vec3" ∧
      GetNumericTypeName .Float 8 3 1 ≠ "") ∧
    (1 < 2 ∧ GetNumericTypeName .Boolean 4 3 2 = "bvec3" ∧
      GetNumericTypeName .Boolean 4 3 2 ≠ "") := by
  decide

/-- C8 (amended): `GetNumericTypeName` does not read the byte size, and for a `Boolean`,
`Signed` or `Unsigned` base it does not read the column count; it returns the empty
sentinel exactly when the base type is not numeric, or the row count is outside 1..4, or
the base is `Float` and the column count is outside 1..4 or there are several columns of
one row. -/
theorem C8_GetNumericTypeName_empty_iff (base : ShaderBaseType) (size r c : Nat) :
    GetNumericTypeName base size r c = GetNumericTypeName base 4 r c ∧
    GetNumericTypeName .Boolean size r c = GetNumericTypeName .Boolean size r 1 ∧
    GetNumericTypeName .Signed size r c = GetNumericTypeName .Signed size r 1 ∧
    GetNumericTypeName .Unsigned size r c = GetNumericTypeName .Unsigned size r 1 ∧
    (GetNumericTypeName base size r c = "" ↔ numericUnmappable base r c) := by
  refine ⟨rfl, rfl, rfl, rfl, ?_⟩
  unfold numericUnmappable GetNumericTypeName
  cases base <;> simp only [] <;> (try split_ifs) <;> simp <;> omega

/-- No texel format token is the string `"!"`. -/
theorem GetImageTexelFormat_ne_bang (base : ShaderBaseType) (size comps : Nat) :
    GetImageTexelFormat base size comps ≠ "!" := by
  unfold GetImageTexelFormat
  cases base <;> simp only [] <;> (try split_ifs) <;> decide

/-- A string with `"image"` in the middle is not empty. -/
theorem image_token_ne_empty (pfx dimText : String) : pfx ++ "image" ++ dimText ≠ "" := by
  intro h
  have hlen := congrArg String.length h
  simp only [String.length_append] at hlen
  have himage : "image".length = 5 := by decide
  have hzero : "".length = 0 := by decide
  omega

/-- C9: for every base type, byte size and component count, `GetImageTexelFormat` is
non-empty if and only if the base is `Unsigned`, `Signed` or `Float`, the component count
is 1, 2 or 4 and, for `Float`, the byte size is 1 or 4; on these combinations it equals
the table `r/rg/rgba` followed by `32ui`, `32i`, `32f` or `8`. In particular
(Unsigned, 4, 2) gives `rg32ui` and (Float, 1, 3) gives the empty sentinel. -/
theorem C9_GetImageTexelFormat_domain (base : ShaderBaseType) (size comps : Nat) :
    (GetImageTexelFormat base size comps ≠ "" ↔ texelFormatDomain base size comps) ∧
    (texelFormatDomain base size comps →
      GetImageTexelFormat base size comps = texelFormatRef base size comps) ∧
    GetImageTexelFormat .Unsigned 4 2 = "rg32ui" ∧
    GetImageTexelFormat .Float 1 3 = "" := by
  refine ⟨?_, ?_, rfl, rfl⟩
  · unfold texelFormatDomain GetImageTexelFormat
    cases base <;> simp only [] <;> (try split_ifs) <;> simp <;> omega
  · rintro ⟨hb, hcomps, hsize⟩
    rcases hb with hb | hb | hb <;> subst hb
    · rcases hcomps with h | h | h <;> subst h <;> rfl
    · rcases hcomps with h | h | h <;> subst h <;> rfl
    · rcases hsize rfl with hs | hs <;> subst hs <;>
        rcases hcomps with h | h | h <;> subst h <;> rfl

theorem C9_GetImageTexelFormat_domain_witness :
    texelFormatDomain .Unsigned 4 2 ∧
    GetImageTexelFormat .Unsigned 4 2 = texelFormatRef .Unsigned 4 2 :=
  ⟨by simp [texelFormatDomain],
   (C9_GetImageTexelFormat_domain .Unsigned 4 2).2.1 (by simp [texelFormatDomain])⟩

/-- C10: for every `Image` descriptor, whatever `*extra` held before the call: when the
dimensionality is mappable the returned token is the non-empty string texel prefix,
`image`, dimensionality postfix, and `*extra` is `"!"` if and only if
`GetImageTexelFormat` of the texel descriptor is empty, otherwise it is that format token,
which is neither `"!"` nor empty; when the dimensionality is unmappable the token is
empty. -/
theorem C10_GetBindingTypeName_image (type : ShaderType) (extra : String)
    (hImage : type.baseType = .Image) :
    (GetImageDimsPostfix type.image.dims ≠ "" →
      (GetBindingTypeName type extra).1 =
        GetImageTexelPrefix type.image.texel.type ++ "image" ++
          GetImageDimsPostfix type.image.dims ∧
      (GetBindingTypeName type extra).1 ≠ "" ∧
      ((GetBindingTypeName type extra).2 = "!" ↔
        GetImageTexelFormat type.image.texel.type type.image.texel.size
          type.image.texel.components = "") ∧
      (GetImageTexelFormat type.image.texel.type type.image.texel.size
          type.image.texel.components ≠ "" →
        (GetBindingTypeName type extra).2 =
          GetImageTexelFormat type.image.texel.type type.image.texel.size
            type.image.texel.components ∧
        (GetBindingTypeName type extra).2 ≠ "!" ∧
        (GetBindingTypeName type extra).2 ≠ "")) ∧
    (GetImageDimsPostfix type.image.dims = "" → (GetBindingTypeName type extra).1 = "") := by
  have hbang := GetImageTexelFormat_ne_bang type.image.texel.type type.image.texel.size
    type.image.texel.components
  constructor
  · intro hdims
    have hcall : GetBindingTypeName type extra =
        (GetImageTexelPrefix type.image.texel.type ++ "image" ++
          GetImageDimsPostfix type.image.dims,
         if GetImageTexelFormat type.image.texel.type type.image.texel.size
            type.image.texel.components = "" then "!"
         else GetImageTexelFormat type.image.texel.type type.image.texel.size
            type.image.texel.components) := by
      simp [GetBindingTypeName, hImage, hdims]
    rw [hcall]
    refine ⟨rfl, image_token_ne_empty _ _, ?_, ?_⟩
    · by_cases hfmt : GetImageTexelFormat type.image.texel.type type.image.texel.size
          type.image.texel.components = ""
      · simp [hfmt]
      · simp [hfmt, hbang]
    · intro hfmt
      simp [hfmt, hbang]
  · intro hdims
    simp [GetBindingTypeName, hImage, hdims]

theorem C10_GetBindingTypeName_image_witness :
    (ShaderType.mk .Image ⟨0, 0, 0⟩ ⟨.E2D, ⟨.Float, 4, 3⟩⟩ "").baseType = .Image ∧
    GetBindingTypeName (ShaderType.mk .Image ⟨0, 0, 0⟩ ⟨.E2D, ⟨.Float, 4, 3⟩⟩ "") ""
      = ("image2D", "!") ∧
    (GetBindingTypeName (ShaderType.mk .Image ⟨0, 0, 0⟩ ⟨.E2D, ⟨.Float, 4, 3⟩⟩ "") "").1
      ≠ "" :=
  ⟨rfl, by decide,
   ((C10_GetBindingTypeName_image
      (ShaderType.mk .Image ⟨0, 0, 0⟩ ⟨.E2D, ⟨.Float, 4, 3⟩⟩ "") "" rfl).1 (by decide)).2.1⟩

/-! ## Generator: lemmas on the stream maps -/

theorem umFind_umAppend_self (m : List (String × String)) (k text : String) :
    umFind (umAppend m k text) k = some ((umFind m k).getD "" ++ text) := by
  simp [umAppend, umFind_umAssign_self]

theorem umFind_umAppend_other (m : List (String × String)) (k n text : String)
    (hn : k ≠ n) : umFind (umAppend m k text) n = umFind m n := by
  simp [umAppend, umFind_umAssign_other _ _ _ _ hn]

theorem umFind_umEnsure_self (m : List (String × String)) (k : String) :
    umFind (umEnsure m k) k = some ((umFind m k).getD "") := by
  unfold umEnsure
  cases h : umFind m k with
  | none => simp [umFind_umAssign_self]
  | some v => simp [h]

theorem umFind_umEnsure_other (m : List (String × String)) (k n : String) (hn : k ≠ n) :
    umFind (umEnsure m k) n = umFind m n := by
  unfold umEnsure
  cases h : umFind m k with
  | none => simp [umFind_umAssign_other _ _ _ _ hn]
  | some v => simp

/-- Appending pieces one after the other appends their concatenation. -/
theorem foldl_append_eq_join (pieces : List String) (text : String) :
    pieces.foldl (fun acc s => acc ++ s) text = text ++ String.join pieces := by
  induction pieces generalizing text with
  | nil => simp [String.join]
  | cons p rest ih =>
    have hjoin : String.join (p :: rest) = p ++ String.join rest := by
      simp only [String.join, List.foldl_cons, String.empty_append]
      rw [ih p, ih ""]
      simp
    rw [List.foldl_cons, ih, hjoin, String.append_assoc]

/-! ## Generator: the push-constant block -/

theorem emitBindingIndices_eq (g : Generator) (maxIndex : Nat) :
    g.emitBindingIndices maxIndex =
      { g with globals_ := g.globals_ ++ "layout (push_constant) uniform _BINDING_INDICES_ \x7b\n"
          ++ String.join ((List.range (bindingIndexCount maxIndex)).map indexFieldLine)
          ++ "\x7d _bidx_;\n\n" } := by
  unfold Generator.emitBindingIndices
  have hfold : ∀ (l : List Nat) (text : String),
      l.foldl (fun text i => text ++ ("\tuint index" ++ toString i ++ ";\n")) text
        = (l.map indexFieldLine).foldl (fun acc s => acc ++ s) text := by
    intro l text
    rw [List.foldl_map]
    rfl
  simp only [hfold, foldl_append_eq_join]

theorem ceil_half_succ (m : Nat) : ⌈((m : ℚ) + 1) / 2⌉₊ = (m + 2) / 2 := by
  have hpos : (m + 2) / 2 ≠ 0 := by omega
  rw [Nat.ceil_eq_iff hpos]
  have h1 : ((m + 2) / 2 - 1) * 2 < m + 1 := by omega
  have h2 : m + 1 ≤ (m + 2) / 2 * 2 := by omega
  have h1q : ((((m + 2) / 2 - 1 : ℕ) : ℚ)) * 2 < (m : ℚ) + 1 := by exact_mod_cast h1
  have h2q : (m : ℚ) + 1 ≤ (((m + 2) / 2 : ℕ) : ℚ) * 2 := by exact_mod_cast h2
  constructor
  · linarith
  · linarith

/-- C11 (counterexample): for `maxIndex = 4294967295` the sum `maxIndex + 2` wraps to 1 in
`uint32`, the count is 0 and the emitted block has no field, while
`ceil((maxIndex + 1) / 2)` is 2147483648. -/
theorem C11_counterexample :
    4294967295 < 2 ^ 32 ∧
    bindingIndexCount 4294967295 = 0 ∧
    ⌈(((4294967295 : ℕ) : ℚ) + 1) / 2⌉₊ = 2147483648 ∧
    ((Generator.new ⟨16, 16, 16, 16, 16⟩).emitBindingIndices 4294967295).globals_ =
      (Generator.new ⟨16, 16, 16, 16, 16⟩).globals_ ++
        "layout (push_constant) uniform _BINDING_INDICES_ \x7b\n" ++ "\x7d _bidx_;\n\n" := by
  refine ⟨by norm_num, by decide, ?_, ?_⟩
  · rw [ceil_half_succ]
  · rw [emitBindingIndices_eq]
    have h0 : bindingIndexCount 4294967295 = 0 := by decide
    simp [h0, String.join]

/-- C11 (amended): for every generator and every `maxIndex` with `maxIndex + 2 < 2 ^ 32`,
the count computed in `uint32` as `(maxIndex + 2) / 2` is `ceil((maxIndex + 1) / 2)`, and
`emitBindingIndices(maxIndex)` appends to the global preamble the push-constant block with
exactly that many fields, `index0 .. index<n-1>` in order, and changes nothing else;
`maxIndex` 0, 1, 2, 3 give 1, 1, 2, 2 fields. -/
theorem C11_pushConstant_field_count (g : Generator) (maxIndex : Nat)
    (h : maxIndex + 2 < 2 ^ 32) :
    bindingIndexCount maxIndex = (maxIndex + 2) / 2 ∧
    bindingIndexCount maxIndex = ⌈((maxIndex : ℚ) + 1) / 2⌉₊ ∧
    g.emitBindingIndices maxIndex =
      { g with globals_ := g.globals_ ++ "layout (push_constant) uniform _BINDING_INDICES_ \x7b\n"
          ++ String.join ((List.range ⌈((maxIndex : ℚ) + 1) / 2⌉₊).map
              fun i => "\tuint index" ++ toString i ++ ";\n")
          ++ "\x7d _bidx_;\n\n" } ∧
    ((List.range ⌈((maxIndex : ℚ) + 1) / 2⌉₊).map
        fun i => "\tuint index" ++ toString i ++ ";\n").length = (maxIndex + 2) / 2 ∧
    bindingIndexCount 0 = 1 ∧ bindingIndexCount 1 = 1 ∧
    bindingIndexCount 2 = 2 ∧ bindingIndexCount 3 = 2 := by
  have hcount : bindingIndexCount maxIndex = (maxIndex + 2) / 2 := by
    unfold bindingIndexCount
    rw [Nat.mod_eq_of_lt h]
  refine ⟨hcount, ?_, ?_, ?_, by decide, by decide, by decide, by decide⟩
  · rw [hcount, ceil_half_succ]
  · rw [emitBindingIndices_eq, ceil_half_succ, hcount]
    rfl
  · rw [ceil_half_succ]
    simp

theorem C11_pushConstant_field_count_witness :
    bindingIndexCount 2 = (2 + 2) / 2 ∧
    bindingIndexCount 2 = ⌈(((2 : ℕ) : ℚ) + 1) / 2⌉₊ :=
  ⟨(C11_pushConstant_field_count (Generator.new ⟨16, 16, 16, 16, 16⟩) 2 (by norm_num)).1,
   (C11_pushConstant_field_count (Generator.new ⟨16, 16, 16, 16, 16⟩) 2 (by norm_num)).2.1⟩

theorem writeFunc_ok {g g1 : Generator} {text : String} (h : g.writeFunc text = .ok g1) :
    ∃ k, g.currentFunc_ = some k ∧
      g1 = { g with stageFunctions_ := umAppend g.stageFunctions_ k text } := by
  unfold Generator.writeFunc at h
  cases hcf : g.currentFunc_ with
  | none => simp [hcf] at h
  | some k =>
    simp only [hcf, Except.ok.injEq] at h
    exact ⟨k, rfl, h.symm⟩

/-- What a call that is not `setCurrentStage` can change: the global text, the headers,
the two counters, and, through `currentFunc_`, the body it points into, the indentation
and the emission mask. -/
theorem step_frame (ext : Helpers) (g g1 : Generator) (op : GenOp)
    (h : g.step ext op = .ok g1) (hop : ∀ s, op ≠ .setCurrentStage s) :
    g1.tableSizes_ = g.tableSizes_ ∧ g1.currentFunc_ = g.currentFunc_ ∧
    (g1.stageFunctions_ = g.stageFunctions_ ∨
      ∃ k text, g.currentFunc_ = some k ∧
        g1.stageFunctions_ = umAppend g.stageFunctions_ k text) ∧
    (g1.bindingEmitMask_ = g.bindingEmitMask_ ∨
      ∃ j, op = .emitBindingIndex j ∧
        g1.bindingEmitMask_ = g.bindingEmitMask_ ||| bindingBit j) ∧
    (g1.localId_ = g.localId_ ∨ ∃ v, op = .emitLocal v) := by
  cases op with
  | setCurrentStage s => exact absurd rfl (hop s)
  | emitStruct name members =>
    simp only [Generator.step, Generator.emitStruct] at h
    split at h
    · cases h
    · cases h
      simp
  | emitVertexInput var => cases h; simp [Generator.emitVertexInput]
  | emitFragmentOutput var => cases h; simp [Generator.emitFragmentOutput]
  | emitUniform unif => cases h; simp [Generator.emitUniform]
  | emitBinding bind =>
    simp only [Generator.step, Generator.emitBinding] at h
    split_ifs at h
    all_goals (split at h)
    all_goals (cases h; try exact ⟨rfl, rfl, Or.inl rfl, Or.inl rfl, Or.inl rfl⟩)
  | emitSubpassInput input => cases h; simp [Generator.emitSubpassInput]
  | emitLocal var => cases h; simp [Generator.emitLocal]
  | emitBindingIndices maxIndex => cases h; simp [Generator.emitBindingIndices]
  | emitDeclaration var =>
    obtain ⟨k, hk, rfl⟩ := writeFunc_ok h
    exact ⟨rfl, rfl, Or.inr ⟨k, _, hk, rfl⟩, Or.inl rfl, Or.inl rfl⟩
  | emitAssignment left op right =>
    obtain ⟨k, hk, rfl⟩ := writeFunc_ok h
    exact ⟨rfl, rfl, Or.inr ⟨k, _, hk, rfl⟩, Or.inl rfl, Or.inl rfl⟩
  | emitImageStore imStore value =>
    simp only [Generator.step, Generator.emitImageStore] at h
    split at h
    · cases h
    · obtain ⟨k, hk, rfl⟩ := writeFunc_ok h
      exact ⟨rfl, rfl, Or.inr ⟨k, _, hk, rfl⟩, Or.inl rfl, Or.inl rfl⟩
  | emitBindingIndex index =>
    simp only [Generator.step, Generator.emitBindingIndex] at h
    split_ifs at h
    · cases h
      exact ⟨rfl, rfl, Or.inl rfl, Or.inl rfl, Or.inl rfl⟩
    · split at h
      · cases h
      · rename_i g2 hw
        obtain ⟨k, hk, rfl⟩ := writeFunc_ok hw
        cases h
        exact ⟨rfl, rfl, Or.inr ⟨k, _, hk, rfl⟩, Or.inr ⟨index, rfl, rfl⟩, Or.inl rfl⟩
  | emitIf condition =>
    simp only [Generator.step, Generator.emitIf] at h
    split at h
    · cases h
    · rename_i g2 hw
      obtain ⟨k, hk, rfl⟩ := writeFunc_ok hw
      cases h
      exact ⟨rfl, rfl, Or.inr ⟨k, _, hk, rfl⟩, Or.inl rfl, Or.inl rfl⟩
  | emitElif condition =>
    simp only [Generator.step, Generator.emitElif] at h
    split at h
    · cases h
    · rename_i g2 hw
      obtain ⟨k, hk, rfl⟩ := writeFunc_ok hw
      cases h
      exact ⟨rfl, rfl, Or.inr ⟨k, _, hk, rfl⟩, Or.inl rfl, Or.inl rfl⟩
  | emitElse =>
    simp only [Generator.step, Generator.emitElse] at h
    split at h
    · cases h
    · rename_i g2 hw
      obtain ⟨k, hk, rfl⟩ := writeFunc_ok hw
      cases h
      exact ⟨rfl, rfl, Or.inr ⟨k, _, hk, rfl⟩, Or.inl rfl, Or.inl rfl⟩
  | emitBlockClose =>
    simp only [Generator.step, Generator.emitBlockClose] at h
    obtain ⟨k, hk, rfl⟩ := writeFunc_ok h
    exact ⟨rfl, rfl, Or.inr ⟨k, _, hk, rfl⟩, Or.inl rfl, Or.inl rfl⟩

/-! ## Generator: the binding-index mask -/

theorem bindingBit_of_lt {index : Nat} (h : index < 32) : bindingBit index = 2 ^ index := by
  unfold bindingBit
  rw [Nat.mod_eq_of_lt h, Nat.one_shiftLeft]

theorem testBit_bindingBit (j i : Nat) :
    (bindingBit j).testBit i = decide (j % 32 = i) := by
  unfold bindingBit
  rw [Nat.one_shiftLeft, Nat.testBit_two_pow]

theorem testBit_bindingBit_of_lt {i : Nat} (hi : i < 32) (p : Nat) :
    (bindingBit i).testBit p = decide (i = p) := by
  rw [bindingBit_of_lt hi, Nat.testBit_two_pow]

theorem and_bindingBit_ne_zero_iff (m : Nat) {i : Nat} (hi : i < 32) :
    m &&& bindingBit i ≠ 0 ↔ m.testBit i = true := by
  constructor
  · intro h
    by_contra hbit
    apply h
    apply Nat.eq_of_testBit_eq
    intro j
    rw [Nat.testBit_and, testBit_bindingBit_of_lt hi j]
    by_cases hij : i = j
    · subst hij
      simp [hbit]
    · simp [hij]
  · intro hbit h
    have := congrArg (fun x => x.testBit i) h
    simp [Nat.testBit_and, testBit_bindingBit_of_lt hi i, hbit] at this

/-- A call that is not `setCurrentStage` keeps the bits of the emission mask that are
set. -/
theorem step_keeps_bit (ext : Helpers) (g g1 : Generator) (op : GenOp) {i : Nat}
    (h : g.step ext op = .ok g1) (hop : op.keepsStage)
    (hbit : g.bindingEmitMask_.testBit i = true) : g1.bindingEmitMask_.testBit i = true := by
  obtain ⟨_, _, _, hmask, _⟩ := step_frame ext g g1 op h hop
  rcases hmask with hmask | ⟨j, _, hmask⟩
  · rw [hmask]
    exact hbit
  · rw [hmask, Nat.testBit_or, hbit]
    rfl

/-- A call that is neither `setCurrentStage` nor an `emitBindingIndex` whose index shares
bit `i` keeps bit `i` of the emission mask clear. -/
theorem step_keeps_clear (ext : Helpers) (g g1 : Generator) (op : GenOp) {i : Nat}
    (h : g.step ext op = .ok g1) (hop : op.keepsStage)
    (hne : ∀ j, op = .emitBindingIndex j → j % 32 ≠ i)
    (hbit : g.bindingEmitMask_.testBit i = false) :
    g1.bindingEmitMask_.testBit i = false := by
  obtain ⟨_, _, _, hmask, _⟩ := step_frame ext g g1 op h hop
  rcases hmask with hmask | ⟨j, hj, hmask⟩
  · rw [hmask]
    exact hbit
  · have hji : j % 32 ≠ i := hne j hj
    rw [hmask, Nat.testBit_or, hbit, testBit_bindingBit j i]
    simp [hji]

theorem run_keepsStage (ext : Helpers) (ops : List GenOp) (g g1 : Generator) {i : Nat}
    (h : g.run ext ops = .ok g1) (hops : ∀ op ∈ ops, op.keepsStage) :
    g1.currentFunc_ = g.currentFunc_ ∧
    (g.bindingEmitMask_.testBit i = true → g1.bindingEmitMask_.testBit i = true) ∧
    ((∀ op ∈ ops, ∀ j, op = .emitBindingIndex j → j % 32 ≠ i) →
      g.bindingEmitMask_.testBit i = false →
      g1.bindingEmitMask_.testBit i = false) := by
  induction ops generalizing g with
  | nil =>
    simp only [Generator.run, Except.ok.injEq] at h
    subst h
    exact ⟨rfl, fun hb => hb, fun _ hb => hb⟩
  | cons op rest ih =>
    simp only [Generator.run] at h
    split at h
    · cases h
    · rename_i g2 hstep
      have hop := hops op (List.mem_cons_self _ _)
      obtain ⟨hcf, hset, hclear⟩ := ih g2 h (fun o ho => hops o (List.mem_cons_of_mem _ ho))
      obtain ⟨_, hcf2, _, _, _⟩ := step_frame ext g g2 op hstep hop
      refine ⟨hcf.trans hcf2, ?_, ?_⟩
      · intro hb
        exact hset (step_keeps_bit ext g g2 op hstep hop hb)
      · intro hne hb
        exact hclear (fun o ho => hne o (List.mem_cons_of_mem _ ho))
          (step_keeps_clear ext g g2 op hstep hop (hne op (List.mem_cons_self _ _)) hb)

theorem emitBindingIndex_of_set (ext : Helpers) (g : Generator) (index : Nat)
    (h : g.bindingEmitMask_ &&& bindingBit index ≠ 0) :
    g.emitBindingIndex ext index = .ok g := by
  simp [Generator.emitBindingIndex, h]

theorem emitBindingIndex_of_clear (ext : Helpers) (g : Generator) (k : String) (index : Nat)
    (h : g.bindingEmitMask_ &&& bindingBit index = 0) (hk : g.currentFunc_ = some k) :
    g.emitBindingIndex ext index = .ok { g with
      stageFunctions_ := umAppend g.stageFunctions_ k
        (bindingIndexLine ext g.indentString_ index)
      bindingEmitMask_ := g.bindingEmitMask_ ||| bindingBit index } := by
  simp [Generator.emitBindingIndex, Generator.writeFunc, h, hk, bindingIndexLine]

theorem setCurrentStage_active (g : Generator) (stage : ShaderStages) (h : stage ≠ .None) :
    g.setCurrentStage stage = .ok { g with
      stageHeaders_ := umEnsure g.stageHeaders_ (ShaderStageToStr stage)
      stageFunctions_ := umAppend (umAssign g.stageFunctions_ (ShaderStageToStr stage) "")
        (ShaderStageToStr stage) "void main()\n\x7b\n"
      currentFunc_ := some (ShaderStageToStr stage)
      indentString_ := "\t"
      bindingEmitMask_ := 0 } := by
  simp [Generator.setCurrentStage, h]

theorem setCurrentStage_none (g : Generator) (k : String) (h : g.currentFunc_ = some k) :
    g.setCurrentStage .None = .ok { g with
      stageFunctions_ := umAppend g.stageFunctions_ k ("\x7d\n" ++ "\n")
      currentFunc_ := none
      indentString_ := "" } := by
  simp [Generator.setCurrentStage, h]

/-- C12 (counterexample): the shift count 32 is taken modulo 32, so index 32 shares bit 0
of the mask with index 0. In the stage activated on a fresh generator, after
`emitBindingIndex(32)` two calls of `emitBindingIndex(0)` write no declaration line of
`_bidx0_`, and after `emitBindingIndex(0)` two calls of `emitBindingIndex(32)` write no
declaration line of `_bidx32_`; the mask is 1 in both runs. -/
theorem C12_counterexample :
    bindingBit 32 = bindingBit 0 ∧
    ((Generator.new ⟨16, 16, 16, 16, 16⟩).run Helpers.markers
        [.setCurrentStage .Vertex, .emitBindingIndex 32, .emitBindingIndex 0,
         .emitBindingIndex 0]).toOption.map
      (fun g => (umFind g.stageFunctions_ "vert", g.bindingEmitMask_)) =
    some (some "void main()\n\x7b\n\tuint _bidx32_ = INDEX;\n", 1) ∧
    ((Generator.new ⟨16, 16, 16, 16, 16⟩).run Helpers.markers
        [.setCurrentStage .Vertex, .emitBindingIndex 0, .emitBindingIndex 32,
         .emitBindingIndex 32]).toOption.map
      (fun g => (umFind g.stageFunctions_ "vert", g.bindingEmitMask_)) =
    some (some "void main()\n\x7b\n\tuint _bidx0_ = INDEX;\n", 1) := by
  refine ⟨by decide, rfl, rfl⟩

/-- C12 (amended): for every `index < 32`: after a stage is activated and any calls other
than `setCurrentStage`, `emitBindingIndex(index)` and `emitBindingIndex` of an index of 32
or more, the call `emitBindingIndex(index)` succeeds, appends the one line
`uint _bidx<index>_ = ...;` at the current indentation to the body of the active stage and
sets the bit of `index` in the mask; after any further calls other than `setCurrentStage`,
a second `emitBindingIndex(index)` succeeds and leaves the generator as it was; and once
the stage has been deactivated and a stage activated again, `emitBindingIndex(index)`
appends the line again. -/
theorem C12_emitBindingIndex_once_per_stage (ext : Helpers) (g0 g g2 : Generator)
    (stage stage2 : ShaderStages) (index : Nat) (ops0 ops : List GenOp)
    (hidx : index < 32) (hstage : stage ≠ .None) (hstage2 : stage2 ≠ .None)
    (hops0 : ∀ op ∈ ops0, op.keepsStage ∧
      ∀ j, op = .emitBindingIndex j → j < 32 ∧ j ≠ index)
    (hrun0 : (g0.setCurrentStage stage).bind (fun ga => ga.run ext ops0) = .ok g)
    (hops : ∀ op ∈ ops, op.keepsStage)
    (hrun : ({ g with
        stageFunctions_ := umAppend g.stageFunctions_ (ShaderStageToStr stage)
          (bindingIndexLine ext g.indentString_ index)
        bindingEmitMask_ := g.bindingEmitMask_ ||| bindingBit index } : Generator).run ext ops
      = .ok g2) :
    g.emitBindingIndex ext index = .ok { g with
      stageFunctions_ := umAppend g.stageFunctions_ (ShaderStageToStr stage)
        (bindingIndexLine ext g.indentString_ index)
      bindingEmitMask_ := g.bindingEmitMask_ ||| bindingBit index } ∧
    g2.emitBindingIndex ext index = .ok g2 ∧
    ∃ g3 g4, g2.setCurrentStage .None = .ok g3 ∧ g3.setCurrentStage stage2 = .ok g4 ∧
      g4.emitBindingIndex ext index = .ok { g4 with
        stageFunctions_ := umAppend g4.stageFunctions_ (ShaderStageToStr stage2)
          (bindingIndexLine ext "\t" index)
        bindingEmitMask_ := bindingBit index } := by
  rw [setCurrentStage_active g0 stage hstage] at hrun0
  simp only [Except.bind] at hrun0
  obtain ⟨hcf, _, hclear⟩ := run_keepsStage ext ops0 _ g hrun0 (fun op ho => (hops0 op ho).1)
  have hbit0 : g.bindingEmitMask_.testBit index = false := by
    apply hclear _ (by simp)
    intro op ho j hj
    obtain ⟨hj32, hjne⟩ := (hops0 op ho).2 j hj
    rw [Nat.mod_eq_of_lt hj32]
    exact hjne
  have hzero : g.bindingEmitMask_ &&& bindingBit index = 0 := by
    by_contra hne
    rw [(and_bindingBit_ne_zero_iff _ hidx).1 hne] at hbit0
    cases hbit0
  have hfirst := emitBindingIndex_of_clear ext g (ShaderStageToStr stage) index hzero hcf
  obtain ⟨hcf2, hset, _⟩ := run_keepsStage ext ops _ g2 hrun hops
  have hbit2 : g2.bindingEmitMask_.testBit index = true := by
    apply hset
    simp [Nat.testBit_or, testBit_bindingBit_of_lt hidx]
  refine ⟨hfirst, ?_, ?_⟩
  · exact emitBindingIndex_of_set ext g2 index ((and_bindingBit_ne_zero_iff _ hidx).2 hbit2)
  · have hk2 : g2.currentFunc_ = some (ShaderStageToStr stage) := by
      rw [hcf2]
      exact hcf
    refine ⟨_, _, setCurrentStage_none g2 _ hk2, setCurrentStage_active _ stage2 hstage2, ?_⟩
    rw [emitBindingIndex_of_clear ext _ (ShaderStageToStr stage2) index (by simp) rfl]
    simp

theorem C12_emitBindingIndex_once_per_stage_witness :
    (Generator.mk ⟨16, 16, 16, 16, 16⟩ "" [("vert", "")]
        [("vert", "void main()\n\x7b\n\tuint _bidx1_ = INDEX;\n")]
        (some "vert") 0 0 "\t" 2).emitBindingIndex Helpers.markers 3
      = .ok (Generator.mk ⟨16, 16, 16, 16, 16⟩ "" [("vert", "")]
          [("vert", "void main()\n\x7b\n\tuint _bidx1_ = INDEX;\n\tuint _bidx3_ = INDEX;\n")]
          (some "vert") 0 0 "\t" 10) ∧
    (Generator.mk ⟨16, 16, 16, 16, 16⟩ "" [("vert", "")]
        [("vert", "void main()\n\x7b\n\tuint _bidx1_ = INDEX;\n\tuint _bidx3_ = INDEX;\n" ++
          "\tuint _bidx32_ = INDEX;\n")]
        (some "vert") 0 0 "\t" 11).emitBindingIndex Helpers.markers 3
      = .ok (Generator.mk ⟨16, 16, 16, 16, 16⟩ "" [("vert", "")]
          [("vert", "void main()\n\x7b\n\tuint _bidx1_ = INDEX;\n\tuint _bidx3_ = INDEX;\n" ++
            "\tuint _bidx32_ = INDEX;\n")]
          (some "vert") 0 0 "\t" 11) :=
  ⟨(C12_emitBindingIndex_once_per_stage Helpers.markers
      (Generator.mk ⟨16, 16, 16, 16, 16⟩ "" [] [] none 0 0 "" 0)
      (Generator.mk ⟨16, 16, 16, 16, 16⟩ "" [("vert", "")]
        [("vert", "void main()\n\x7b\n\tuint _bidx1_ = INDEX;\n")] (some "vert") 0 0 "\t" 2)
      (Generator.mk ⟨16, 16, 16, 16, 16⟩ "" [("vert", "")]
        [("vert", "void main()\n\x7b\n\tuint _bidx1_ = INDEX;\n\tuint _bidx3_ = INDEX;\n" ++
          "\tuint _bidx32_ = INDEX;\n")] (some "vert") 0 0 "\t" 11)
      .Vertex .Fragment 3 [.emitBindingIndex 1] [.emitBindingIndex 32]
      (by decide) (by decide) (by decide) (by simp [GenOp.keepsStage]) rfl
      (by simp [GenOp.keepsStage]) rfl).1,
   (C12_emitBindingIndex_once_per_stage Helpers.markers
      (Generator.mk ⟨16, 16, 16, 16, 16⟩ "" [] [] none 0 0 "" 0)
      (Generator.mk ⟨16, 16, 16, 16, 16⟩ "" [("vert", "")]
        [("vert", "void main()\n\x7b\n\tuint _bidx1_ = INDEX;\n")] (some "vert") 0 0 "\t" 2)
      (Generator.mk ⟨16, 16, 16, 16, 16⟩ "" [("vert", "")]
        [("vert", "void main()\n\x7b\n\tuint _bidx1_ = INDEX;\n\tuint _bidx3_ = INDEX;\n" ++
          "\tuint _bidx32_ = INDEX;\n")] (some "vert") 0 0 "\t" 11)
      .Vertex .Fragment 3 [.emitBindingIndex 1] [.emitBindingIndex 32]
      (by decide) (by decide) (by decide) (by simp [GenOp.keepsStage]) rfl
      (by simp [GenOp.keepsStage]) rfl).2.1⟩

/-! ## Generator: finalization -/

theorem ShaderStageToStr_injective (s t : ShaderStages)
    (h : ShaderStageToStr s = ShaderStageToStr t) : s = t := by
  cases s <;> cases t <;> first | rfl | (exact absurd h (by decide))

/-- C13: for every generator state in which the requested stage has a header buffer with
text `hstr` and a body buffer with text `fstr`, `getStageString` returns `true` and the
text `globals ++ hstr ++ fstr`, in that order (the function is `const`: there is no new
state); and from every state, a stage that is activated and then deactivated with no
statement in between has the body `void main()`, opening brace, closing brace, blank line,
and is finalized to the global preamble, its header and that body. -/
theorem C13_getStageString_order (g : Generator) (stage : ShaderStages) (hstr fstr : String)
    (hh : umFind g.stageHeaders_ (ShaderStageToStr stage) = some hstr)
    (hf : umFind g.stageFunctions_ (ShaderStageToStr stage) = some fstr) :
    g.getStageString stage = (true, g.globals_ ++ hstr ++ fstr) ∧
    ∀ g0 : Generator, stage ≠ .None →
      ∃ g1 g2, g0.setCurrentStage stage = .ok g1 ∧ g1.setCurrentStage .None = .ok g2 ∧
        umFind g2.stageFunctions_ (ShaderStageToStr stage)
          = some "void main()\n\x7b\n\x7d\n\n" ∧
        g2.getStageString stage =
          (true, g0.globals_ ++ (umFind g0.stageHeaders_ (ShaderStageToStr stage)).getD "" ++
            "void main()\n\x7b\n\x7d\n\n") := by
  constructor
  · simp [Generator.getStageString, hh, hf]
  · intro g0 hstage
    refine ⟨_, _, setCurrentStage_active g0 stage hstage, setCurrentStage_none _ _ rfl, ?_, ?_⟩
    · simp only [umFind_umAppend_self, umFind_umAssign_self]
      rfl
    · simp only [Generator.getStageString, umFind_umAppend_self, umFind_umAssign_self,
        umFind_umEnsure_self]
      rfl

theorem C13_getStageString_order_witness :
    (Generator.mk ⟨16, 16, 16, 16, 16⟩ "G" [("vert", "H")] [("vert", "F")] none 0 0 ""
        0).getStageString .Vertex = (true, "G" ++ "H" ++ "F") :=
  (C13_getStageString_order
    (Generator.mk ⟨16, 16, 16, 16, 16⟩ "G" [("vert", "H")] [("vert", "F")] none 0 0 "" 0)
    .Vertex "H" "F" rfl rfl).1
/-- A call that does not activate the stage called `name` leaves that stage without a
body buffer, and `currentFunc_` does not point at it. -/
theorem step_keeps_body_absent (ext : Helpers) (g g1 : Generator) (op : GenOp)
    (stage : ShaderStages) (h : g.step ext op = .ok g1) (hop : op ≠ .setCurrentStage stage)
    (habsent : umFind g.stageFunctions_ (ShaderStageToStr stage) = none)
    (hcur : g.currentFunc_ ≠ some (ShaderStageToStr stage)) :
    umFind g1.stageFunctions_ (ShaderStageToStr stage) = none ∧
    g1.currentFunc_ ≠ some (ShaderStageToStr stage) := by
  by_cases hkeep : op.keepsStage
  · obtain ⟨_, hcf, hfun, _, _⟩ := step_frame ext g g1 op h hkeep
    refine ⟨?_, hcf ▸ hcur⟩
    rcases hfun with hfun | ⟨k, text, hk, hfun⟩
    · rw [hfun]
      exact habsent
    · have hne : k ≠ ShaderStageToStr stage := by
        intro hkn
        exact hcur (hkn ▸ hk)
      rw [hfun, umFind_umAppend_other _ _ _ _ hne]
      exact habsent
  · unfold GenOp.keepsStage at hkeep
    push_neg at hkeep
    obtain ⟨s, rfl⟩ := hkeep
    simp only [Generator.step] at h
    by_cases hs : s = .None
    · subst hs
      cases hk : g.currentFunc_ with
      | none => simp [Generator.setCurrentStage, hk] at h
      | some k =>
        rw [setCurrentStage_none g k hk] at h
        cases h
        have hne : k ≠ ShaderStageToStr stage := by
          intro hkn
          exact hcur (hkn ▸ hk)
        refine ⟨?_, by simp⟩
        simp only [umFind_umAppend_other _ _ _ _ hne]
        exact habsent
    · rw [setCurrentStage_active g s hs] at h
      cases h
      have hne : ShaderStageToStr s ≠ ShaderStageToStr stage := by
        intro hn
        exact hop (congrArg GenOp.setCurrentStage (ShaderStageToStr_injective _ _ hn))
      refine ⟨?_, ?_⟩
      · simp only [umFind_umAppend_other _ _ _ _ hne, umFind_umAssign_other _ _ _ _ hne]
        exact habsent
      · simpa using hne

theorem run_keeps_body_absent (ext : Helpers) (ops : List GenOp) (g g1 : Generator)
    (stage : ShaderStages) (h : g.run ext ops = .ok g1)
    (hops : ∀ op ∈ ops, op ≠ .setCurrentStage stage)
    (habsent : umFind g.stageFunctions_ (ShaderStageToStr stage) = none)
    (hcur : g.currentFunc_ ≠ some (ShaderStageToStr stage)) :
    umFind g1.stageFunctions_ (ShaderStageToStr stage) = none := by
  induction ops generalizing g with
  | nil =>
    simp only [Generator.run, Except.ok.injEq] at h
    subst h
    exact habsent
  | cons op rest ih =>
    simp only [Generator.run] at h
    split at h
    · cases h
    · rename_i g2 hstep
      obtain ⟨ha, hc⟩ := step_keeps_body_absent ext g g2 op stage hstep
        (hops op (List.mem_cons_self _ _)) habsent hcur
      exact ih g2 h (fun o ho => hops o (List.mem_cons_of_mem _ ho)) ha hc

/-- C14: after every sequence of calls on a new generator that never calls
`setCurrentStage(s)`, whatever headers the sequence creates, `getStageString(s)` returns
`false` and leaves the empty string in the output; and in every state `getStageString(s)`
returns `true` if and only if both the header buffer and the body buffer of `s` exist, and
the empty text whenever it returns `false`. -/
theorem C14_getStageString_not_found (ext : Helpers) (tableSizes : BindingTableSizes)
    (ops : List GenOp) (stage : ShaderStages) (g : Generator)
    (hops : ∀ op ∈ ops, op ≠ .setCurrentStage stage)
    (hrun : (Generator.new tableSizes).run ext ops = .ok g) :
    g.getStageString stage = (false, "") ∧
    ∀ (g1 : Generator) (s : ShaderStages),
      ((g1.getStageString s).1 = true ↔
        umFind g1.stageHeaders_ (ShaderStageToStr s) ≠ none ∧
        umFind g1.stageFunctions_ (ShaderStageToStr s) ≠ none) ∧
      ((g1.getStageString s).1 = false → (g1.getStageString s).2 = "") := by
  constructor
  · have habsent := run_keeps_body_absent ext ops _ g stage hrun hops rfl
      (by simp [Generator.new])
    unfold Generator.getStageString
    simp only [habsent]
    split <;> simp_all
  · intro g1 s
    unfold Generator.getStageString
    cases hh : umFind g1.stageHeaders_ (ShaderStageToStr s) <;>
      cases hf : umFind g1.stageFunctions_ (ShaderStageToStr s) <;> simp [hh, hf]

theorem C14_getStageString_not_found_witness :
    ((Generator.new ⟨16, 16, 16, 16, 16⟩).emitLocal
        ⟨"uv", ShaderType.ofNumeric .Float 4 2 1, 1, false⟩).getStageString .Vertex
      = (false, "") :=
  (C14_getStageString_not_found Helpers.markers ⟨16, 16, 16, 16, 16⟩
    [.emitLocal ⟨"uv", ShaderType.ofNumeric .Float 4 2 1, 1, false⟩] .Vertex _
    (by simp) rfl).1

/-! ## Generator: the location counter of the interpolated locals -/

theorem emitLocal_headers (g : Generator) (var : Variable) :
    umFind (g.emitLocal var).stageHeaders_ "vert" =
      some ((umFind g.stageHeaders_ "vert").getD "" ++
        localDeclaration g.localId_ var "out " " _vert_") ∧
    umFind (g.emitLocal var).stageHeaders_ "frag" =
      some ((umFind g.stageHeaders_ "frag").getD "" ++
        localDeclaration g.localId_ var "in " " _frag_") := by
  have hvf : "vert" ≠ "frag" := by decide
  have hfv : "frag" ≠ "vert" := by decide
  unfold Generator.emitLocal localDeclaration
  constructor
  · simp only [umFind_umAppend_other _ _ _ _ hfv, umFind_umAppend_self,
      umFind_umEnsure_other _ _ _ hfv, umFind_umEnsure_self, Option.getD_some]
  · simp only [umFind_umAppend_other _ _ _ _ hvf, umFind_umAppend_self,
      umFind_umEnsure_other _ _ _ hvf, umFind_umEnsure_self, Option.getD_some]

/-- Only `emitLocal` changes the counter `localId_`, and it adds one. -/
theorem step_localId (ext : Helpers) (g g1 : Generator) (op : GenOp)
    (h : g.step ext op = .ok g1) :
    g1.localId_ = if op.isEmitLocal then g.localId_ + 1 else g.localId_ := by
  by_cases hkeep : op.keepsStage
  · cases op with
    | emitLocal var =>
      cases h
      simp [Generator.emitLocal, GenOp.isEmitLocal]
    | _ =>
      obtain ⟨_, _, _, _, hloc⟩ := step_frame ext g g1 _ h hkeep
      rcases hloc with hloc | ⟨v, hv⟩
      · simpa [GenOp.isEmitLocal] using hloc
      · cases hv
  · unfold GenOp.keepsStage at hkeep
    push_neg at hkeep
    obtain ⟨s, rfl⟩ := hkeep
    simp only [Generator.step, Generator.setCurrentStage] at h
    split_ifs at h
    · split at h
      · cases h
      · cases h
        simp [GenOp.isEmitLocal]
    · cases h
      simp [GenOp.isEmitLocal]

theorem run_localId (ext : Helpers) (ops : List GenOp) (g g1 : Generator)
    (h : g.run ext ops = .ok g1) :
    g1.localId_ = g.localId_ + ops.countP GenOp.isEmitLocal := by
  induction ops generalizing g with
  | nil =>
    simp only [Generator.run, Except.ok.injEq] at h
    subst h
    simp
  | cons op rest ih =>
    simp only [Generator.run] at h
    split at h
    · cases h
    · rename_i g2 hstep
      rw [ih g2 h, step_localId ext g g2 op hstep, List.countP_cons]
      by_cases hop : op.isEmitLocal = true
      · simp only [hop, if_true]
        omega
      · simp only [hop]
        simp

/-- The counter `localId_` after a sequence of calls on a new generator: the number of
`emitLocal` calls. -/
theorem run_new_localId (ext : Helpers) (tableSizes : BindingTableSizes) (ops : List GenOp)
    (g : Generator) (h : (Generator.new tableSizes).run ext ops = .ok g) :
    g.localId_ = ops.countP GenOp.isEmitLocal := by
  have hsum := run_localId ext ops _ g h
  simpa [Generator.new] using hsum

/-- C15: after any sequence of calls on a new generator that holds `k - 1` calls of
`emitLocal`, the counter is `k - 1`, and the next call of `emitLocal`, the `k`-th, appends
to the vertex header an `out` declaration and to the fragment header an `in` declaration
that both carry location `k - 1`, whatever the row count, column count or flat flag of the
variable, and leaves the counter at `k`; no call other than `emitLocal` changes the
counter. -/
theorem C15_emitLocal_locations (ext : Helpers) (tableSizes : BindingTableSizes)
    (ops : List GenOp) (g : Generator) (var : Variable)
    (hrun : (Generator.new tableSizes).run ext ops = .ok g) :
    g.localId_ = ops.countP GenOp.isEmitLocal ∧
    umFind (g.emitLocal var).stageHeaders_ "vert" =
      some ((umFind g.stageHeaders_ "vert").getD "" ++
        localDeclaration (ops.countP GenOp.isEmitLocal) var "out " " _vert_") ∧
    umFind (g.emitLocal var).stageHeaders_ "frag" =
      some ((umFind g.stageHeaders_ "frag").getD "" ++
        localDeclaration (ops.countP GenOp.isEmitLocal) var "in " " _frag_") ∧
    (g.emitLocal var).localId_ = ops.countP GenOp.isEmitLocal + 1 ∧
    ∀ (g1 g2 : Generator) (op : GenOp), op.isEmitLocal = false →
      g1.step ext op = .ok g2 → g2.localId_ = g1.localId_ := by
  have hid : g.localId_ = ops.countP GenOp.isEmitLocal :=
    run_new_localId ext tableSizes ops g hrun
  refine ⟨hid, ?_, ?_, ?_, ?_⟩
  · rw [(emitLocal_headers g var).1, hid]
  · rw [(emitLocal_headers g var).2, hid]
  · simp [Generator.emitLocal, hid]
  · intro g1 g2 op hop hstep
    rw [step_localId ext g1 g2 op hstep, hop]
    simp

theorem C15_emitLocal_locations_witness :
    ((Generator.new ⟨16, 16, 16, 16, 16⟩).emitLocal
        ⟨"uv", ShaderType.ofNumeric .Float 4 2 1, 1, false⟩).localId_ = 1 ∧
    umFind (((Generator.new ⟨16, 16, 16, 16, 16⟩).emitLocal
        ⟨"uv", ShaderType.ofNumeric .Float 4 2 1, 1, false⟩).emitLocal
        ⟨"n", ShaderType.ofNumeric .Float 4 3 3, 1, true⟩).stageHeaders_ "frag" =
      some ((umFind ((Generator.new ⟨16, 16, 16, 16, 16⟩).emitLocal
          ⟨"uv", ShaderType.ofNumeric .Float 4 2 1, 1, false⟩).stageHeaders_ "frag").getD "" ++
        localDeclaration
          (List.countP GenOp.isEmitLocal
            [GenOp.emitLocal ⟨"uv", ShaderType.ofNumeric .Float 4 2 1, 1, false⟩])
          ⟨"n", ShaderType.ofNumeric .Float 4 3 3, 1, true⟩ "in " " _frag_") :=
  ⟨(C15_emitLocal_locations Helpers.markers ⟨16, 16, 16, 16, 16⟩
      [.emitLocal ⟨"uv", ShaderType.ofNumeric .Float 4 2 1, 1, false⟩] _
      ⟨"n", ShaderType.ofNumeric .Float 4 3 3, 1, true⟩ rfl).1,
   (C15_emitLocal_locations Helpers.markers ⟨16, 16, 16, 16, 16⟩
      [.emitLocal ⟨"uv", ShaderType.ofNumeric .Float 4 2 1, 1, false⟩] _
      ⟨"n", ShaderType.ofNumeric .Float 4 3 3, 1, true⟩ rfl).2.2.1⟩

/-! ## Generator: sets, slots and blocks -/

/-- C16: for every binding variable `getSetAndBinding` yields set 0 and slot 0 for
`Sampler`, 1 for `Image`, 2 for `ROBuffer` and `RWBuffer`, 3 for `ROTexels`, 4 for
`RWTexels`, with the configured maximum of that category as table size; every other type
kind ends in the error "Invalid type for set and binding indices"; and two bindings get
the same slot only if they are of the same category. -/
theorem C16_getSetAndBinding_table (g : Generator) (bind bind2 : BindingVariable) :
    (bind.type.baseType = .Sampler →
      g.getSetAndBinding bind = .ok (0, 0, g.tableSizes_.samplers)) ∧
    (bind.type.baseType = .Image →
      g.getSetAndBinding bind = .ok (0, 1, g.tableSizes_.images)) ∧
    (bind.type.baseType = .ROBuffer ∨ bind.type.baseType = .RWBuffer →
      g.getSetAndBinding bind = .ok (0, 2, g.tableSizes_.buffers)) ∧
    (bind.type.baseType = .ROTexels →
      g.getSetAndBinding bind = .ok (0, 3, g.tableSizes_.roTexels)) ∧
    (bind.type.baseType = .RWTexels →
      g.getSetAndBinding bind = .ok (0, 4, g.tableSizes_.rwTexels)) ∧
    (resourceCategory bind.type.baseType = none →
      g.getSetAndBinding bind = .error .InvalidSetAndBindingType) ∧
    (∀ r r2, g.getSetAndBinding bind = .ok r → g.getSetAndBinding bind2 = .ok r2 →
      r.2.1 = r2.2.1 →
      resourceCategory bind.type.baseType = resourceCategory bind2.type.baseType) := by
  refine ⟨?_, ?_, ?_, ?_, ?_, ?_, ?_⟩
  · intro h
    simp [Generator.getSetAndBinding, h]
  · intro h
    simp [Generator.getSetAndBinding, h]
  · rintro (h | h) <;> simp [Generator.getSetAndBinding, h]
  · intro h
    simp [Generator.getSetAndBinding, h]
  · intro h
    simp [Generator.getSetAndBinding, h]
  · intro h
    unfold Generator.getSetAndBinding
    cases hb : bind.type.baseType <;> simp_all [resourceCategory]
  · intro r r2 h1 h2 hslot
    unfold Generator.getSetAndBinding at h1 h2
    cases hb : bind.type.baseType <;> cases hb2 : bind2.type.baseType <;>
      simp only [hb, hb2] at h1 h2 <;> cases h1 <;> cases h2 <;>
      first | rfl | (simp at hslot)

theorem C16_getSetAndBinding_table_witness :
    (Generator.new ⟨1, 2, 3, 4, 5⟩).getSetAndBinding
        ⟨"data", ShaderType.ofBuffer .RWBuffer "Light"⟩ = .ok (0, 2, 3) ∧
    (Generator.new ⟨1, 2, 3, 4, 5⟩).getSetAndBinding
        ⟨"tex", ShaderType.ofImage .BoundSampler .E2D⟩ = .error .InvalidSetAndBindingType :=
  ⟨(C16_getSetAndBinding_table (Generator.new ⟨1, 2, 3, 4, 5⟩)
      ⟨"data", ShaderType.ofBuffer .RWBuffer "Light"⟩
      ⟨"data", ShaderType.ofBuffer .RWBuffer "Light"⟩).2.2.1 (Or.inr rfl),
   (C16_getSetAndBinding_table (Generator.new ⟨1, 2, 3, 4, 5⟩)
      ⟨"tex", ShaderType.ofImage .BoundSampler .E2D⟩
      ⟨"tex", ShaderType.ofImage .BoundSampler .E2D⟩).2.2.2.2.2.1 rfl⟩

/-- C17 (counterexample): on a new generator with the vertex stage activated and no block
open, `emitBlockClose` returns: the body gets a closing brace at empty indentation and the
indentation, one tab before, is empty afterwards; a second `emitBlockClose`, at empty
indentation, returns as well and writes another closing brace. -/
theorem C17_counterexample :
    ((Generator.new ⟨16, 16, 16, 16, 16⟩).run Helpers.markers
        [.setCurrentStage .Vertex, .emitBlockClose]).toOption.map
      (fun g => (umFind g.stageFunctions_ "vert", g.indentString_))
      = some (some "void main()\n\x7b\n\x7d\n", "") ∧
    ((Generator.new ⟨16, 16, 16, 16, 16⟩).run Helpers.markers
        [.setCurrentStage .Vertex, .emitBlockClose, .emitBlockClose]).toOption.map
      (fun g => (umFind g.stageFunctions_ "vert", g.indentString_))
      = some (some "void main()\n\x7b\n\x7d\n\x7d\n", "") := by
  constructor <;> rfl

/-- C17 (amended): `emitBlockClose` has no underflow check. In every state with an active
stage and no open block (indentation of one tab) it returns, sets the indentation to the
empty string and appends a closing brace line at empty indentation to the stage body; in
every state with an active stage and empty indentation it returns as well, keeps the
empty indentation and appends the same line. -/
theorem C17_emitBlockClose_no_check (g : Generator) (k : String)
    (hk : g.currentFunc_ = some k) :
    (g.indentString_ = "\t" →
      g.emitBlockClose = .ok { g with
        indentString_ := ""
        stageFunctions_ := umAppend g.stageFunctions_ k "\x7d\n" }) ∧
    (g.indentString_ = "" →
      g.emitBlockClose = .ok { g with
        stageFunctions_ := umAppend g.stageFunctions_ k "\x7d\n" }) := by
  have htab : substrDropLast "\t" = "" := by decide
  have hempty : substrDropLast "" = "" := by decide
  constructor
  · intro hi
    simp [Generator.emitBlockClose, Generator.writeFunc, hk, hi, htab]
  · intro hi
    simp only [Generator.emitBlockClose, Generator.writeFunc, hk, hi, hempty,
      String.empty_append]

theorem C17_emitBlockClose_no_check_witness :
    (Generator.mk ⟨16, 16, 16, 16, 16⟩ "" [("vert", "")] [("vert", "void main()\n\x7b\n")]
        (some "vert") 0 0 "\t" 0).emitBlockClose
      = .ok (Generator.mk ⟨16, 16, 16, 16, 16⟩ "" [("vert", "")]
          (umAppend [("vert", "void main()\n\x7b\n")] "vert" "\x7d\n") (some "vert") 0 0 "" 0) :=
  (C17_emitBlockClose_no_check
    (Generator.mk ⟨16, 16, 16, 16, 16⟩ "" [("vert", "")] [("vert", "void main()\n\x7b\n")]
      (some "vert") 0 0 "\t" 0) "vert" rfl).1 rfl

/-! ## Generator: declarations -/

/-- C18 (evaluation at the failing input): the numeric descriptor (Float, size 4, 1 row,
2 columns) has no type token, and neither has the descriptor of `void`; `emitVertexInput`
and `emitFragmentOutput` with a variable of the first type, and `emitLocal` with a variable
of the second, return and append declarations with an empty type token to the stage
headers, while `emitStruct` with a member of the first type ends in the error "Unmappable
numeric type". -/
theorem C18_unmappable_type_is_emitted :
    GetNumericTypeName .Float 4 1 2 = "" ∧
    GetNumericTypeName .Void 0 0 0 = "" ∧
    ((Generator.new ⟨16, 16, 16, 16, 16⟩).step Helpers.markers
        (.emitVertexInput ⟨"m", ShaderType.ofNumeric .Float 4 1 2, 1, 0⟩)).toOption.map
      (fun g => umFind g.stageHeaders_ "vert")
      = some (some "layout(location = 0) in  m;\n\n") ∧
    ((Generator.new ⟨16, 16, 16, 16, 16⟩).step Helpers.markers
        (.emitFragmentOutput ⟨"m", ShaderType.ofNumeric .Float 4 1 2, 1, 0⟩)).toOption.map
      (fun g => umFind g.stageHeaders_ "frag")
      = some (some "layout(location = 0) out  m;\n\n") ∧
    ((Generator.new ⟨16, 16, 16, 16, 16⟩).step Helpers.markers
        (.emitLocal ⟨"v", ShaderType.ofVoid, 1, false⟩)).toOption.map
      (fun g => (umFind g.stageHeaders_ "vert", umFind g.stageHeaders_ "frag"))
      = some (some "layout(location = 0) out  _vert_v;\n\n",
          some "layout(location = 0) in  _frag_v;\n\n") ∧
    (Generator.new ⟨16, 16, 16, 16, 16⟩).step Helpers.markers
        (.emitStruct "S" [⟨"m", .Float, 4, 1, 2, 1⟩])
      = .error (.UnmappableNumericType .Float 4 1 2) := by
  refine ⟨rfl, rfl, rfl, rfl, rfl, rfl⟩

/-- C19 (evaluation at the failing input): for the interface variable `color` of type
`vec4`, array length 2 and location 0, `emitVertexInput` appends the declaration with the
suffix `[2]`, as `emitStruct` does for a member of array length 2, and
`emitFragmentOutput` appends the declaration without any suffix. -/
theorem C19_fragment_output_drops_array_suffix :
    ((Generator.new ⟨16, 16, 16, 16, 16⟩).emitVertexInput
        ⟨"color", ShaderType.ofNumeric .Float 4 4 1, 2, 0⟩).stageHeaders_
      = [("vert", "layout(location = 0) in vec4 color[2];\n\n")] ∧
    ((Generator.new ⟨16, 16, 16, 16, 16⟩).emitFragmentOutput
        ⟨"color", ShaderType.ofNumeric .Float 4 4 1, 2, 0⟩).stageHeaders_
      = [("frag", "layout(location = 0) out vec4 color;\n\n")] ∧
    ((Generator.new ⟨16, 16, 16, 16, 16⟩).emitStruct "S"
        [⟨"color", .Float, 4, 4, 1, 2⟩]).toOption.map (fun g => g.globals_)
      = some ((Generator.new ⟨16, 16, 16, 16, 16⟩).globals_ ++
          "struct S_t \x7b\n\tvec4 color[2];\n\x7d;\n\n") := by
  refine ⟨rfl, rfl, rfl⟩

/-- C20 (evaluation at the failing input): with the texel descriptor (Float, size 4,
3 components), which has no texel format, `emitBinding` of an `Image` binding ends in the
error "Invalid binding extra type", but `emitBinding` of an `RWTexels` binding returns and
appends a layout declaration without format qualifier to the global preamble (`TABLE`
is the marker text of the table-name helper). -/
theorem C20_rwTexels_binding_without_format :
    GetImageTexelFormat .Float 4 3 = "" ∧
    (Generator.new ⟨16, 16, 16, 16, 16⟩).emitBinding Helpers.markers
        ⟨"img", ⟨.Image, ⟨0, 0, 0⟩, ⟨.E2D, ⟨.Float, 4, 3⟩⟩, ""⟩⟩
      = .error (.InvalidBindingExtra "img") ∧
    GetBindingTypeName ⟨.RWTexels, ⟨0, 0, 0⟩, ⟨.None, ⟨.Float, 4, 3⟩⟩, ""⟩ ""
      = ("imageBuffer", "") ∧
    ((Generator.new ⟨16, 16, 16, 16, 16⟩).emitBinding Helpers.markers
        ⟨"texels", ⟨.RWTexels, ⟨0, 0, 0⟩, ⟨.None, ⟨.Float, 4, 3⟩⟩, ""⟩⟩).toOption.map
      (fun g => g.globals_)
      = some ((Generator.new ⟨16, 16, 16, 16, 16⟩).globals_ ++
          "layout(set = 0, binding = 4) uniform imageBuffer TABLE[16];\n\n") := by
  refine ⟨rfl, rfl, rfl, rfl⟩

/-! ## The builtin numeric types and their tokens -/

/-- C24: every entry of the builtin table with a numeric kind has a non-empty
`GetNumericTypeName` token; every builtin whose name is `float<A>x<B>` has the token made
of `mat` and the same `<A>x<B>`; and for `A` and `B` in 2..4 the builtin `float<A>x<B>`
exists and its token is `mat<A>x<B>`. -/
theorem C24_builtin_numeric_tokens :
    (∀ entry ∈ BuiltinTypes_, entry.2.baseType.isNumeric = true →
      numericTokenOf entry.2 ≠ "") ∧
    (∀ entry ∈ BuiltinTypes_, isMatrixName entry.1 = true →
      numericTokenOf entry.2 = "mat" ++ String.mk (entry.1.data.drop 5)) ∧
    (∀ A ∈ [2, 3, 4], ∀ B ∈ [2, 3, 4],
      (umFind BuiltinTypes_ ("float" ++ toString A ++ "x" ++ toString B)).map numericTokenOf
        = some ("mat" ++ toString A ++ "x" ++ toString B)) ∧
    (BuiltinTypes_.filter (fun entry => entry.2.baseType.isNumeric)).map Prod.fst =
      ["bool", "bool2", "bool3", "bool4", "int", "int2", "int3", "int4",
       "uint", "uint2", "uint3", "uint4", "float", "float2", "float3", "float4",
       "float2x2", "float3x3", "float4x4", "float2x3", "float3x2", "float2x4", "float4x2",
       "float3x4", "float4x3"] := by
  refine ⟨by decide, by decide, by decide, by decide⟩

/-! ## Generator: the counter of the anonymous buffer blocks -/

theorem digitChar_value (m : Nat) (h : m < 10) : (Nat.digitChar m).toNat - 48 = m := by
  interval_cases m <;> decide

theorem toDigitsCore_value (fuel n : Nat) (ds : List Char) (h : n < fuel) :
    (Nat.toDigitsCore 10 fuel n ds).foldl (fun acc c => acc * 10 + (c.toNat - 48)) 0 =
      ds.foldl (fun acc c => acc * 10 + (c.toNat - 48)) n := by
  induction fuel generalizing n ds with
  | zero => omega
  | succ fuel ih =>
    simp only [Nat.toDigitsCore]
    split_ifs with h0
    · have hn : n % 10 = n := by omega
      have hd := digitChar_value (n % 10) (Nat.mod_lt _ (by norm_num))
      rw [hn] at hd
      simp [hn, hd]
    · rw [ih (n / 10) _ (by omega)]
      have hn : n / 10 * 10 + n % 10 = n := by omega
      simp [digitChar_value (n % 10) (Nat.mod_lt _ (by norm_num)), hn]

/-- The decimal text of a natural number reads back as the number. -/
theorem decimalValue_toString (n : Nat) : decimalValue (toString n).data = n := by
  show decimalValue (Nat.repr n).data = n
  unfold Nat.repr Nat.toDigits decimalValue
  simp only [List.asString]
  rw [toDigitsCore_value (n + 1) n [] (by omega)]
  rfl

theorem toString_injective {a b : Nat} (h : toString a = toString b) : a = b := by
  have := congrArg (fun s => decimalValue s.data) h
  simpa [decimalValue_toString] using this

/-- Blocks with different numbers have different names. -/
theorem bufferBlockName_injective {a b : Nat} (h : bufferBlockName a = bufferBlockName b) :
    a = b := by
  unfold bufferBlockName at h
  have hdata := congrArg String.data h
  simp only [String.data_append, List.append_cancel_right_eq] at hdata
  have hcancel := List.append_cancel_left hdata
  exact toString_injective (String.ext hcancel)
/-- Only an `emitBinding` of a buffer-kind resource changes the counter `uniqueId_`, and
it adds one in `uint32`. -/
theorem step_uniqueId (ext : Helpers) (g g1 : Generator) (op : GenOp)
    (h : g.step ext op = .ok g1) :
    g1.uniqueId_ = if op.isBufferBinding then (g.uniqueId_ + 1) % 2 ^ 32 else g.uniqueId_ := by
  cases op with
  | setCurrentStage s =>
    simp only [Generator.step, Generator.setCurrentStage] at h
    split_ifs at h
    · split at h
      · cases h
      · cases h
        rfl
    · cases h
      rfl
  | emitStruct name members =>
    simp only [Generator.step, Generator.emitStruct] at h
    split at h
    · cases h
    · cases h
      rfl
  | emitVertexInput var => cases h; rfl
  | emitFragmentOutput var => cases h; rfl
  | emitUniform unif => cases h; rfl
  | emitBinding bind =>
    simp only [Generator.step, Generator.emitBinding] at h
    by_cases hbuf : bind.type.isBuffer = true
    · simp only [GenOp.isBufferBinding, hbuf, if_true] at h ⊢
      split_ifs at h
      all_goals (split at h)
      all_goals (cases h <;> rfl)
    · simp only [GenOp.isBufferBinding, hbuf] at h ⊢
      split_ifs at h
      all_goals (split at h)
      all_goals (cases h <;> first | rfl | contradiction)
  | emitSubpassInput input => cases h; rfl
  | emitLocal var => cases h; rfl
  | emitBindingIndices maxIndex => cases h; rfl
  | emitDeclaration var =>
    obtain ⟨k, _, rfl⟩ := writeFunc_ok h
    rfl
  | emitAssignment left op right =>
    obtain ⟨k, _, rfl⟩ := writeFunc_ok h
    rfl
  | emitImageStore imStore value =>
    simp only [Generator.step, Generator.emitImageStore] at h
    split at h
    · cases h
    · obtain ⟨k, _, rfl⟩ := writeFunc_ok h
      rfl
  | emitBindingIndex index =>
    simp only [Generator.step, Generator.emitBindingIndex] at h
    split_ifs at h
    · cases h
      rfl
    · split at h
      · cases h
      · rename_i g2 hw
        obtain ⟨k, _, rfl⟩ := writeFunc_ok hw
        cases h
        rfl
  | emitIf condition =>
    simp only [Generator.step, Generator.emitIf] at h
    split at h
    · cases h
    · rename_i g2 hw
      obtain ⟨k, _, rfl⟩ := writeFunc_ok hw
      cases h
      rfl
  | emitElif condition =>
    simp only [Generator.step, Generator.emitElif] at h
    split at h
    · cases h
    · rename_i g2 hw
      obtain ⟨k, _, rfl⟩ := writeFunc_ok hw
      cases h
      rfl
  | emitElse =>
    simp only [Generator.step, Generator.emitElse] at h
    split at h
    · cases h
    · rename_i g2 hw
      obtain ⟨k, _, rfl⟩ := writeFunc_ok hw
      cases h
      rfl
  | emitBlockClose =>
    simp only [Generator.step, Generator.emitBlockClose] at h
    obtain ⟨k, _, rfl⟩ := writeFunc_ok h
    rfl

/-- An `emitBinding` of a read-only or read-write buffer returns: it appends the block
declaration with the current number to the global preamble and adds one to the counter. -/
theorem emitBinding_buffer (ext : Helpers) (g : Generator) (bind : BindingVariable)
    (hb : bind.type.baseType = .ROBuffer ∨ bind.type.baseType = .RWBuffer) :
    g.emitBinding ext bind = .ok { g with
      globals_ := g.globals_ ++ bufferBlockDeclaration bind g.uniqueId_ g.tableSizes_.buffers
      uniqueId_ := (g.uniqueId_ + 1) % 2 ^ 32 } := by
  have h0 : toString (0 : Nat) = "0" := rfl
  have h1 : toString (2 : Nat) = "2" := rfl
  have h2 : ∀ id : Nat, "_BUFFER" ++ toString id ++ "_ \x7b\n" = bufferBlockName id ++ " \x7b\n" := by
    intro id
    unfold bufferBlockName
    rw [String.append_assoc ("_BUFFER" ++ toString id)]
    rfl
  rcases hb with hb | hb
  · simp [Generator.emitBinding, GetBindingTypeName, Generator.getSetAndBinding,
      ShaderType.isBuffer, hb, bufferBlockDeclaration, h0, h1, h2, String.append_assoc]
  · simp [Generator.emitBinding, GetBindingTypeName, Generator.getSetAndBinding,
      ShaderType.isBuffer, hb, bufferBlockDeclaration, h0, h1, h2, String.append_assoc]
theorem run_uniqueId (ext : Helpers) (ops : List GenOp) (g g1 : Generator)
    (h : g.run ext ops = .ok g1) :
    g1.uniqueId_ % 2 ^ 32 = (g.uniqueId_ + ops.countP GenOp.isBufferBinding) % 2 ^ 32 := by
  induction ops generalizing g with
  | nil =>
    simp only [Generator.run, Except.ok.injEq] at h
    subst h
    simp
  | cons op rest ih =>
    simp only [Generator.run] at h
    split at h
    · cases h
    · rename_i g2 hstep
      rw [ih g2 h, step_uniqueId ext g g2 op hstep, List.countP_cons]
      by_cases hop : op.isBufferBinding = true
      · simp only [hop, if_true]
        omega
      · simp only [hop]
        simp

theorem run_uniqueId_lt (ext : Helpers) (ops : List GenOp) (g g1 : Generator)
    (h : g.run ext ops = .ok g1) (hlt : g.uniqueId_ < 2 ^ 32) : g1.uniqueId_ < 2 ^ 32 := by
  induction ops generalizing g with
  | nil =>
    simp only [Generator.run, Except.ok.injEq] at h
    subst h
    exact hlt
  | cons op rest ih =>
    simp only [Generator.run] at h
    split at h
    · cases h
    · rename_i g2 hstep
      apply ih g2 h
      rw [step_uniqueId ext g g2 op hstep]
      split_ifs
      · exact Nat.mod_lt _ (by norm_num)
      · exact hlt

/-- The counter `uniqueId_` after a sequence of calls: the number of buffer-kind
`emitBinding` calls added to the counter before, as long as the sum stays below
`2 ^ 32`. -/
theorem run_uniqueId_eq (ext : Helpers) (ops : List GenOp) (g g1 : Generator)
    (h : g.run ext ops = .ok g1)
    (hlt : g.uniqueId_ + ops.countP GenOp.isBufferBinding < 2 ^ 32) :
    g1.uniqueId_ = g.uniqueId_ + ops.countP GenOp.isBufferBinding := by
  have hmod := run_uniqueId ext ops g g1 h
  have hlt1 := run_uniqueId_lt ext ops g g1 h (by omega)
  rw [Nat.mod_eq_of_lt hlt1, Nat.mod_eq_of_lt hlt] at hmod
  exact hmod

/-- C21: on a new generator, with fewer than `2 ^ 32` buffer bindings in all: when `k - 1`
buffer-kind `emitBinding` calls have been made, the next `emitBinding` of a read-only or
read-write buffer, the `k`-th, returns and declares its block under the name
`_BUFFER<k-1>_`; a later buffer binding gets a larger number and a different block name;
the counter does not decrease; and a call that is not a buffer-kind `emitBinding`, a
non-buffer binding included, leaves the counter as it is. -/
theorem C21_buffer_block_ids (ext : Helpers) (tableSizes : BindingTableSizes)
    (ops1 ops2 : List GenOp) (b1 b2 : BindingVariable) (g1 g2 : Generator)
    (hb1 : b1.type.baseType = .ROBuffer ∨ b1.type.baseType = .RWBuffer)
    (hb2 : b2.type.baseType = .ROBuffer ∨ b2.type.baseType = .RWBuffer)
    (hrun1 : (Generator.new tableSizes).run ext ops1 = .ok g1)
    (hrun2 : ({ g1 with
        globals_ := g1.globals_ ++ bufferBlockDeclaration b1
          (ops1.countP GenOp.isBufferBinding) g1.tableSizes_.buffers
        uniqueId_ := ops1.countP GenOp.isBufferBinding + 1 } : Generator).run ext ops2
      = .ok g2)
    (hcount : ops1.countP GenOp.isBufferBinding + 1 + ops2.countP GenOp.isBufferBinding
      < 2 ^ 32) :
    g1.emitBinding ext b1 = .ok { g1 with
      globals_ := g1.globals_ ++ bufferBlockDeclaration b1
        (ops1.countP GenOp.isBufferBinding) g1.tableSizes_.buffers
      uniqueId_ := ops1.countP GenOp.isBufferBinding + 1 } ∧
    g2.emitBinding ext b2 = .ok { g2 with
      globals_ := g2.globals_ ++ bufferBlockDeclaration b2
        (ops1.countP GenOp.isBufferBinding + 1 + ops2.countP GenOp.isBufferBinding)
        g2.tableSizes_.buffers
      uniqueId_ := (ops1.countP GenOp.isBufferBinding + 1 +
        ops2.countP GenOp.isBufferBinding + 1) % 2 ^ 32 } ∧
    bufferBlockName (ops1.countP GenOp.isBufferBinding) ≠
      bufferBlockName (ops1.countP GenOp.isBufferBinding + 1 +
        ops2.countP GenOp.isBufferBinding) ∧
    g1.uniqueId_ < g2.uniqueId_ ∧
    (∀ (ga gb : Generator) (op : GenOp), ga.step ext op = .ok gb →
      ga.uniqueId_ + 1 < 2 ^ 32 → ga.uniqueId_ ≤ gb.uniqueId_) ∧
    (∀ (ga gb : Generator) (op : GenOp), op.isBufferBinding = false →
      ga.step ext op = .ok gb → gb.uniqueId_ = ga.uniqueId_) := by
  have hid1 : g1.uniqueId_ = ops1.countP GenOp.isBufferBinding := by
    have := run_uniqueId_eq ext ops1 _ g1 hrun1 (by simp only [Generator.new]; omega)
    simpa [Generator.new] using this
  have hid2 : g2.uniqueId_ = ops1.countP GenOp.isBufferBinding + 1 +
      ops2.countP GenOp.isBufferBinding :=
    run_uniqueId_eq ext ops2 _ g2 hrun2 hcount
  refine ⟨?_, ?_, ?_, ?_, ?_, ?_⟩
  · rw [emitBinding_buffer ext g1 b1 hb1, hid1, Nat.mod_eq_of_lt (by omega)]
  · rw [emitBinding_buffer ext g2 b2 hb2, hid2]
  · intro hname
    have := bufferBlockName_injective hname
    omega
  · omega
  · intro ga gb op hstep hlt
    rw [step_uniqueId ext ga gb op hstep]
    split_ifs
    · rw [Nat.mod_eq_of_lt hlt]
      omega
    · exact Nat.le_refl _
  · intro ga gb op hop hstep
    rw [step_uniqueId ext ga gb op hstep, hop]
    simp

theorem C21_buffer_block_ids_witness :
    (Generator.new ⟨16, 16, 16, 16, 16⟩).emitBinding Helpers.markers
        ⟨"lights", ShaderType.ofBuffer .ROBuffer "Light"⟩
      = .ok { Generator.new ⟨16, 16, 16, 16, 16⟩ with
          globals_ := (Generator.new ⟨16, 16, 16, 16, 16⟩).globals_ ++
            bufferBlockDeclaration ⟨"lights", ShaderType.ofBuffer .ROBuffer "Light"⟩
              (List.countP GenOp.isBufferBinding []) 16
          uniqueId_ := List.countP GenOp.isBufferBinding [] + 1 } ∧
    bufferBlockName 0 = "_BUFFER0_" :=
  ⟨(C21_buffer_block_ids Helpers.markers ⟨16, 16, 16, 16, 16⟩ []
      [.emitBinding ⟨"tex", ShaderType.ofImage .Sampler .E2D⟩]
      ⟨"lights", ShaderType.ofBuffer .ROBuffer "Light"⟩
      ⟨"cells", ShaderType.ofBuffer .RWBuffer "Cell"⟩ _ _
      (Or.inl rfl) (Or.inr rfl) rfl rfl (by decide)).1, rfl⟩

/-! ## Generator: the stage buffers over time -/

theorem BuffersGrow.refl (m : List (String × String)) : BuffersGrow m m := by
  intro name text h
  exact ⟨"", by simpa using h⟩

theorem BuffersGrow.trans {m m1 m2 : List (String × String)} (h1 : BuffersGrow m m1)
    (h2 : BuffersGrow m1 m2) : BuffersGrow m m2 := by
  intro name text h
  obtain ⟨more1, hm1⟩ := h1 name text h
  obtain ⟨more2, hm2⟩ := h2 name _ hm1
  exact ⟨more1 ++ more2, by rw [hm2, String.append_assoc]⟩

theorem BuffersGrow.umEnsure (m : List (String × String)) (k : String) :
    BuffersGrow m (umEnsure m k) := by
  intro name text h
  by_cases hk : k = name
  · subst hk
    exact ⟨"", by simp [umFind_umEnsure_self, h]⟩
  · exact ⟨"", by simpa [umFind_umEnsure_other _ _ _ hk] using h⟩

theorem BuffersGrow.umAppend (m : List (String × String)) (k piece : String) :
    BuffersGrow m (umAppend m k piece) := by
  intro name text h
  by_cases hk : k = name
  · subst hk
    exact ⟨piece, by simp [umFind_umAppend_self, h]⟩
  · exact ⟨"", by simpa [umFind_umAppend_other _ _ _ _ hk] using h⟩

/-- No call removes or shortens a header buffer. -/
theorem step_headers_grow (ext : Helpers) (g g1 : Generator) (op : GenOp)
    (h : g.step ext op = .ok g1) : BuffersGrow g.stageHeaders_ g1.stageHeaders_ := by
  cases op with
  | setCurrentStage s =>
    simp only [Generator.step, Generator.setCurrentStage] at h
    split_ifs at h
    · split at h
      · cases h
      · cases h
        exact BuffersGrow.refl _
    · cases h
      exact BuffersGrow.umEnsure _ _
  | emitStruct name members =>
    simp only [Generator.step, Generator.emitStruct] at h
    split at h
    · cases h
    · cases h
      exact BuffersGrow.refl _
  | emitVertexInput var =>
    cases h
    exact (BuffersGrow.umEnsure _ _).trans (BuffersGrow.umAppend _ _ _)
  | emitFragmentOutput var =>
    cases h
    exact (BuffersGrow.umEnsure _ _).trans (BuffersGrow.umAppend _ _ _)
  | emitUniform unif => cases h; exact BuffersGrow.refl _
  | emitBinding bind =>
    simp only [Generator.step, Generator.emitBinding] at h
    split_ifs at h
    all_goals (split at h)
    all_goals (cases h <;> exact BuffersGrow.refl _)
  | emitSubpassInput input =>
    cases h
    exact (BuffersGrow.umEnsure _ _).trans (BuffersGrow.umAppend _ _ _)
  | emitLocal var =>
    cases h
    exact ((BuffersGrow.umEnsure _ _).trans (BuffersGrow.umEnsure _ _)).trans
      ((BuffersGrow.umAppend _ _ _).trans (BuffersGrow.umAppend _ _ _))
  | emitBindingIndices maxIndex => cases h; exact BuffersGrow.refl _
  | emitDeclaration var =>
    obtain ⟨k, _, rfl⟩ := writeFunc_ok h
    exact BuffersGrow.refl _
  | emitAssignment left op right =>
    obtain ⟨k, _, rfl⟩ := writeFunc_ok h
    exact BuffersGrow.refl _
  | emitImageStore imStore value =>
    simp only [Generator.step, Generator.emitImageStore] at h
    split at h
    · cases h
    · obtain ⟨k, _, rfl⟩ := writeFunc_ok h
      exact BuffersGrow.refl _
  | emitBindingIndex index =>
    simp only [Generator.step, Generator.emitBindingIndex] at h
    split_ifs at h
    · cases h
      exact BuffersGrow.refl _
    · split at h
      · cases h
      · rename_i g2 hw
        obtain ⟨k, _, rfl⟩ := writeFunc_ok hw
        cases h
        exact BuffersGrow.refl _
  | emitIf condition =>
    simp only [Generator.step, Generator.emitIf] at h
    split at h
    · cases h
    · rename_i g2 hw
      obtain ⟨k, _, rfl⟩ := writeFunc_ok hw
      cases h
      exact BuffersGrow.refl _
  | emitElif condition =>
    simp only [Generator.step, Generator.emitElif] at h
    split at h
    · cases h
    · rename_i g2 hw
      obtain ⟨k, _, rfl⟩ := writeFunc_ok hw
      cases h
      exact BuffersGrow.refl _
  | emitElse =>
    simp only [Generator.step, Generator.emitElse] at h
    split at h
    · cases h
    · rename_i g2 hw
      obtain ⟨k, _, rfl⟩ := writeFunc_ok hw
      cases h
      exact BuffersGrow.refl _
  | emitBlockClose =>
    simp only [Generator.step, Generator.emitBlockClose] at h
    obtain ⟨k, _, rfl⟩ := writeFunc_ok h
    exact BuffersGrow.refl _

/-- A call that does not activate the stage called `name` does not remove or shorten the
body buffer of that stage. -/
theorem step_body_grows (ext : Helpers) (g g1 : Generator) (op : GenOp) (name text : String)
    (h : g.step ext op = .ok g1)
    (hop : ∀ s, op = .setCurrentStage s → s = .None ∨ ShaderStageToStr s ≠ name)
    (hbody : umFind g.stageFunctions_ name = some text) :
    ∃ more, umFind g1.stageFunctions_ name = some (text ++ more) := by
  by_cases hkeep : op.keepsStage
  · obtain ⟨_, _, hfun, _, _⟩ := step_frame ext g g1 op h hkeep
    rcases hfun with hfun | ⟨k, piece, _, hfun⟩
    · rw [hfun]
      exact BuffersGrow.refl _ name text hbody
    · rw [hfun]
      exact BuffersGrow.umAppend _ _ _ name text hbody
  · unfold GenOp.keepsStage at hkeep
    push_neg at hkeep
    obtain ⟨s, rfl⟩ := hkeep
    simp only [Generator.step] at h
    rcases hop s rfl with hs | hs
    · subst hs
      cases hk : g.currentFunc_ with
      | none => simp [Generator.setCurrentStage, hk] at h
      | some k =>
        rw [setCurrentStage_none g k hk] at h
        cases h
        exact BuffersGrow.umAppend _ _ _ name text hbody
    · by_cases hnone : s = .None
      · subst hnone
        cases hk : g.currentFunc_ with
        | none => simp [Generator.setCurrentStage, hk] at h
        | some k =>
          rw [setCurrentStage_none g k hk] at h
          cases h
          exact BuffersGrow.umAppend _ _ _ name text hbody
      · rw [setCurrentStage_active g s hnone] at h
        cases h
        refine ⟨"", ?_⟩
        simp only [umFind_umAppend_other _ _ _ _ hs, umFind_umAssign_other _ _ _ _ hs,
          String.append_empty]
        exact hbody
/-- C22 (counterexample): on a new generator the vertex stage is activated, an assignment
is emitted, the stage is deactivated and activated again: the body buffer of the stage,
which held the entry lines, the assignment and the closing lines, holds the two entry
lines only; the text emitted before is gone. -/
theorem C22_counterexample :
    ((Generator.new ⟨16, 16, 16, 16, 16⟩).run Helpers.markers
        [.setCurrentStage .Vertex, .emitAssignment "x" "=" "1",
         .setCurrentStage .None]).toOption.map
      (fun g => umFind g.stageFunctions_ "vert")
      = some (some "void main()\n\x7b\n\tx = 1;\n\x7d\n\n") ∧
    ((Generator.new ⟨16, 16, 16, 16, 16⟩).run Helpers.markers
        [.setCurrentStage .Vertex, .emitAssignment "x" "=" "1",
         .setCurrentStage .None, .setCurrentStage .Vertex]).toOption.map
      (fun g => umFind g.stageFunctions_ "vert")
      = some (some "void main()\n\x7b\n") := by
  constructor <;> rfl

/-- C22 (amended): over every sequence of calls, a header buffer that exists keeps
existing and its text is only extended; the body buffer of a stage keeps existing and its
text is only extended as long as the sequence does not activate that stage again; and
activating a stage keeps the text of its header buffer (an empty one is created when
there is none) and replaces its body buffer by a fresh one that holds the two entry lines
only. -/
theorem C22_stage_buffers_over_time (ext : Helpers) (g g1 : Generator) (ops : List GenOp)
    (hrun : g.run ext ops = .ok g1) :
    BuffersGrow g.stageHeaders_ g1.stageHeaders_ ∧
    (∀ name text, umFind g.stageFunctions_ name = some text →
      (∀ s, GenOp.setCurrentStage s ∈ ops → s = .None ∨ ShaderStageToStr s ≠ name) →
      ∃ more, umFind g1.stageFunctions_ name = some (text ++ more)) ∧
    (∀ stage, stage ≠ .None → ∃ g2, g1.setCurrentStage stage = .ok g2 ∧
      umFind g2.stageHeaders_ (ShaderStageToStr stage)
        = some ((umFind g1.stageHeaders_ (ShaderStageToStr stage)).getD "") ∧
      umFind g2.stageFunctions_ (ShaderStageToStr stage) = some "void main()\n\x7b\n") := by
  refine ⟨?_, ?_, ?_⟩
  · induction ops generalizing g with
    | nil =>
      simp only [Generator.run, Except.ok.injEq] at hrun
      subst hrun
      exact BuffersGrow.refl _
    | cons op rest ih =>
      simp only [Generator.run] at hrun
      split at hrun
      · cases hrun
      · rename_i g2 hstep
        exact (step_headers_grow ext g g2 op hstep).trans (ih g2 hrun)
  · induction ops generalizing g with
    | nil =>
      intro name text hbody _
      simp only [Generator.run, Except.ok.injEq] at hrun
      subst hrun
      exact BuffersGrow.refl _ name text hbody
    | cons op rest ih =>
      intro name text hbody hops
      simp only [Generator.run] at hrun
      split at hrun
      · cases hrun
      · rename_i g2 hstep
        obtain ⟨more1, h1⟩ := step_body_grows ext g g2 op name text hstep
          (fun s hs => hops s (hs ▸ List.mem_cons_self _ _)) hbody
        obtain ⟨more2, h2⟩ := ih g2 hrun name _ h1
          (fun s hs => hops s (List.mem_cons_of_mem _ hs))
        exact ⟨more1 ++ more2, by rw [h2, String.append_assoc]⟩
  · intro stage hstage
    refine ⟨_, setCurrentStage_active g1 stage hstage, ?_, ?_⟩
    · simp only [umFind_umEnsure_self]
    · simp only [umFind_umAppend_self, umFind_umAssign_self]
      rfl

theorem C22_stage_buffers_over_time_witness :
    BuffersGrow [("vert", "layout(location = 0) in vec4 position;\n\n")]
      [("vert", "layout(location = 0) in vec4 position;\n\n" ++
          "layout(location = 0) out vec2 _vert_uv;\n\n"),
       ("frag", "layout(location = 0) in vec2 _frag_uv;\n\n")] :=
  (C22_stage_buffers_over_time Helpers.markers
    (Generator.mk ⟨16, 16, 16, 16, 16⟩ ""
      [("vert", "layout(location = 0) in vec4 position;\n\n")] [] none 0 0 "" 0)
    (Generator.mk ⟨16, 16, 16, 16, 16⟩ ""
      [("vert", "layout(location = 0) in vec4 position;\n\n" ++
          "layout(location = 0) out vec2 _vert_uv;\n\n"),
       ("frag", "layout(location = 0) in vec2 _frag_uv;\n\n")] [] none 0 1 "" 0)
    [.emitLocal ⟨"uv", ShaderType.ofNumeric .Float 4 2 1, 1, false⟩] rfl).1

/-! ## Generator: indentation and block nesting -/

theorem tabs_succ (depth : Nat) : tabs (depth + 1) = tabs depth ++ "\t" := by
  unfold tabs
  rw [List.replicate_succ']
  rfl

theorem substrDropLast_append_tab (s : String) (h : s.length < 2 ^ 64) :
    substrDropLast (s ++ "\t") = s := by
  unfold substrDropLast
  have hlen : (s ++ "\t").length = s.length + 1 := by
    rw [String.length_append]
    rfl
  have hcount : ((s ++ "\t").length + 2 ^ 64 - 1) % 2 ^ 64 = s.data.length := by
    rw [hlen]
    have : s.data.length = s.length := rfl
    omega
  rw [hcount, String.data_append, List.take_left]

/-- A block-opening call on an active stage writes its opening line at the current
indentation and then adds one tab to the indentation. -/
theorem step_opensBlock (ext : Helpers) (g : Generator) (k : String) (op : GenOp)
    (hk : g.currentFunc_ = some k) (hop : op.opensBlock = true) :
    g.step ext op = .ok { g with
      stageFunctions_ := umAppend g.stageFunctions_ k (g.indentString_ ++ op.openingLine)
      indentString_ := g.indentString_ ++ "\t" } := by
  cases op <;> simp [GenOp.opensBlock] at hop
  · simp [Generator.step, Generator.emitIf, Generator.writeFunc, hk, GenOp.openingLine,
      String.append_assoc]
  · simp [Generator.step, Generator.emitElif, Generator.writeFunc, hk, GenOp.openingLine,
      String.append_assoc]
  · simp [Generator.step, Generator.emitElse, Generator.writeFunc, hk, GenOp.openingLine]

/-- With a block open, `emitBlockClose` on an active stage takes one tab off the
indentation and writes the closing brace at the indentation that is left. -/
theorem emitBlockClose_open (g : Generator) (k s : String) (hk : g.currentFunc_ = some k)
    (hind : g.indentString_ = s ++ "\t") (hlen : s.length < 2 ^ 64) :
    g.emitBlockClose = .ok { g with
      indentString_ := s
      stageFunctions_ := umAppend g.stageFunctions_ k (s ++ "\x7d\n") } := by
  simp [Generator.emitBlockClose, Generator.writeFunc, hk, hind,
    substrDropLast_append_tab s hlen]

/-- After a sequence of block-opening calls and `emitBlockClose` calls that never closes a
block while none is open, the indentation is the one before the sequence followed by one
tab for each block that is still open. -/
theorem run_blocks (ext : Helpers) (ops : List GenOp) (g : Generator) (k base : String)
    (depth depth1 : Nat) (hk : g.currentFunc_ = some k)
    (hind : g.indentString_ = base ++ tabs depth)
    (hlen : g.indentString_.length + ops.length < 2 ^ 64)
    (hdepth : blockDepth ops depth = some depth1) :
    ∃ g1, g.run ext ops = .ok g1 ∧ g1.currentFunc_ = some k ∧
      g1.indentString_ = base ++ tabs depth1 := by
  induction ops generalizing g depth with
  | nil =>
    simp only [blockDepth, Option.some.injEq] at hdepth
    subst hdepth
    exact ⟨g, rfl, hk, hind⟩
  | cons op rest ih =>
    simp only [List.length_cons] at hlen
    by_cases hclose : op = .emitBlockClose
    · subst hclose
      cases depth with
      | zero => simp [blockDepth] at hdepth
      | succ d =>
        simp only [blockDepth] at hdepth
        have hind1 : g.indentString_ = (base ++ tabs d) ++ "\t" := by
          rw [hind, tabs_succ, String.append_assoc]
        have hlen1 : (base ++ tabs d).length < 2 ^ 64 := by
          have := congrArg String.length hind1
          rw [String.length_append] at this
          omega
        have hstep := emitBlockClose_open g k _ hk hind1 hlen1
        obtain ⟨g1, hrun, hk1, hi1⟩ := ih
          { g with
            indentString_ := base ++ tabs d
            stageFunctions_ := umAppend g.stageFunctions_ k (base ++ tabs d ++ "\x7d\n") }
          d hk rfl
          (by
            have := congrArg String.length hind1
            rw [String.length_append] at this
            show (base ++ tabs d).length + rest.length < 2 ^ 64
            omega) hdepth
        exact ⟨g1, by simpa [Generator.run, Generator.step, hstep] using hrun, hk1, hi1⟩
    · have hopen : op.opensBlock = true := by
        cases op <;> simp_all [blockDepth, GenOp.opensBlock]
      have hdepth1 : blockDepth rest (depth + 1) = some depth1 := by
        cases op <;> simp_all [blockDepth, GenOp.opensBlock]
      have hstep := step_opensBlock ext g k op hk hopen
      obtain ⟨g1, hrun, hk1, hi1⟩ := ih
        { g with
          stageFunctions_ := umAppend g.stageFunctions_ k (g.indentString_ ++ op.openingLine)
          indentString_ := g.indentString_ ++ "\t" }
        (depth + 1) hk
        (by rw [tabs_succ, ← String.append_assoc, ← hind])
        (by
          show (g.indentString_ ++ "\t").length + rest.length < 2 ^ 64
          rw [String.length_append]
          have : "\t".length = 1 := rfl
          omega) hdepth1
      exact ⟨g1, by simpa [Generator.run, hstep] using hrun, hk1, hi1⟩
/-- C23: while a stage is active (indentation strings are shorter than `2 ^ 64`): `emitIf`,
`emitElif` and `emitElse` write their opening line at the current indentation and then
add exactly one tab to the indentation; `emitBlockClose` with a block open takes exactly
one tab off and writes the closing brace at the indentation that is left; after any
sequence of opens and closes the indentation is its value before followed by one tab for
each block still open, so after a balanced sequence it is its value before; the closing
brace that matches an opening line is written at the indentation of that line; and the
indentation at function level, right after a stage is activated, is one tab. -/
theorem C23_indentation_tracks_nesting (ext : Helpers) (g : Generator) (k : String)
    (op : GenOp) (inner ops : List GenOp) (depth : Nat)
    (hk : g.currentFunc_ = some k) (hop : op.opensBlock = true)
    (hinner : blockDepth inner 0 = some 0) (hops : blockDepth ops 0 = some depth)
    (hlen : g.indentString_.length + inner.length + ops.length + 1 < 2 ^ 64) :
    g.step ext op = .ok { g with
      stageFunctions_ := umAppend g.stageFunctions_ k (g.indentString_ ++ op.openingLine)
      indentString_ := g.indentString_ ++ "\t" } ∧
    (∀ (g1 : Generator) (s : String), g1.currentFunc_ = some k →
      g1.indentString_ = s ++ "\t" → s.length < 2 ^ 64 →
      g1.emitBlockClose = .ok { g1 with
        indentString_ := s
        stageFunctions_ := umAppend g1.stageFunctions_ k (s ++ "\x7d\n") }) ∧
    (∃ g1, g.run ext ops = .ok g1 ∧ g1.currentFunc_ = some k ∧
      g1.indentString_ = g.indentString_ ++ tabs depth ∧
      (depth = 0 → g1.indentString_ = g.indentString_)) ∧
    (∃ g2, ({ g with
          stageFunctions_ := umAppend g.stageFunctions_ k (g.indentString_ ++ op.openingLine)
          indentString_ := g.indentString_ ++ "\t" } : Generator).run ext inner = .ok g2 ∧
      g2.indentString_ = g.indentString_ ++ "\t" ∧
      g2.emitBlockClose = .ok { g2 with
        indentString_ := g.indentString_
        stageFunctions_ := umAppend g2.stageFunctions_ k (g.indentString_ ++ "\x7d\n") }) ∧
    (∀ (g0 : Generator) (stage : ShaderStages), stage ≠ .None →
      ∃ ga, g0.setCurrentStage stage = .ok ga ∧ ga.indentString_ = "\t") := by
  have htabs0 : tabs 0 = "" := rfl
  refine ⟨step_opensBlock ext g k op hk hop, ?_, ?_, ?_, ?_⟩
  · intro g1 s hk1 hind hs
    exact emitBlockClose_open g1 k s hk1 hind hs
  · obtain ⟨g1, hrun, hk1, hi1⟩ := run_blocks ext ops g k g.indentString_ 0 depth hk
      (by rw [htabs0, String.append_empty]) (by omega) hops
    refine ⟨g1, hrun, hk1, hi1, ?_⟩
    intro hd
    rw [hi1, hd, htabs0, String.append_empty]
  · obtain ⟨g2, hrun, hk2, hi2⟩ := run_blocks ext inner
      { g with
        stageFunctions_ := umAppend g.stageFunctions_ k (g.indentString_ ++ op.openingLine)
        indentString_ := g.indentString_ ++ "\t" }
      k (g.indentString_ ++ "\t") 0 0 hk
      (by rw [htabs0, String.append_empty])
      (by
        show (g.indentString_ ++ "\t").length + inner.length < 2 ^ 64
        rw [String.length_append]
        have : "\t".length = 1 := rfl
        omega) hinner
    rw [htabs0, String.append_empty] at hi2
    exact ⟨g2, hrun, hi2, emitBlockClose_open g2 k g.indentString_ hk2 hi2 (by omega)⟩
  · intro g0 stage hstage
    exact ⟨_, setCurrentStage_active g0 stage hstage, rfl⟩

theorem C23_indentation_tracks_nesting_witness :
    ∃ g1, (Generator.mk ⟨16, 16, 16, 16, 16⟩ "" [("frag", "")]
        [("frag", "void main()\n\x7b\n")] (some "frag") 0 0 "\t" 0).run Helpers.markers
        [.emitIf "a", .emitIf "b", .emitBlockClose, .emitElse, .emitBlockClose,
         .emitBlockClose] = .ok g1 ∧
      g1.currentFunc_ = some "frag" ∧ g1.indentString_ = "\t" ++ tabs 0 ∧
      (0 = 0 → g1.indentString_ = "\t") :=
  (C23_indentation_tracks_nesting Helpers.markers
    (Generator.mk ⟨16, 16, 16, 16, 16⟩ "" [("frag", "")] [("frag", "void main()\n\x7b\n")]
      (some "frag") 0 0 "\t" 0)
    "frag" (.emitIf "a") [.emitElse, .emitBlockClose]
    [.emitIf "a", .emitIf "b", .emitBlockClose, .emitElse, .emitBlockClose, .emitBlockClose]
    0 rfl rfl rfl rfl (by decide)).2.2.1

end VSL
